import Mathlib

/-!
# shell32 `CCopyToMenu` ("Copy to folder...") — embedding and checked properties

Source: `dll/win32/shell32/CCopyToMenu.cpp`.

The component is glue around operating-system services.  Each service the
source calls but does not define is a field of `Host` (an oracle for one
run), or a small executable model given below with a comment saying which
service it stands for.  Machine integers are `Nat`/`Int`; `UINT` arithmetic
is reduced modulo `2 ^ 32` where the source can wrap.  A call that would
dereference a null pointer never returns: it is `none`.
-/

set_option maxRecDepth 100000

namespace CopyTo

/-! ## Basic types and constants (Windows headers) -/

/-- One UTF-16 code unit. -/
abbrev WCHAR := Nat

/-- A string of `WCHAR`s without its terminator. -/
abbrev WStr := List WCHAR

/-- A 32-bit signed result code. -/
abbrev HRESULT := Int

/-- An item identifier list; its bytes are opaque to this component. -/
abbrev PIDL := List Nat

def S_OK : HRESULT := 0

/-- The value 0x80004005 read as a signed 32-bit integer. -/
def E_FAIL : HRESULT := -2147467259

/-- The macro `FAILED(hr)`; `FAILED_UNEXPECTEDLY` is the same test plus a log line. -/
def FAILED (hr : HRESULT) : Bool := decide (hr < 0)

def MAX_PATH : Nat := 260

def MFT_STRING : Nat := 0

def MFT_SEPARATOR : Nat := 0x800

def MIIM_ID : Nat := 0x2

def MIIM_TYPE : Nat := 0x10

def FO_COPY : Nat := 2

def FOF_ALLOWUNDO : Nat := 0x40

def WM_USER : Nat := 0x400

/-- The private message `#define WM_ENABLEOK (WM_USER + 0x2000)`. -/
def WM_ENABLEOK : Nat := WM_USER + 0x2000

def BFFM_INITIALIZED : Nat := 1

def BFFM_SELCHANGED : Nat := 2

def BFFM_ENABLEOK : Nat := WM_USER + 101

def BFFM_SETSELECTION : Nat := WM_USER + 103

def BIF_RETURNONLYFSDIRS : Nat := 0x1

def BIF_USENEWUI : Nat := 0x50

def IDOK : Nat := 1

/-- Reduction of a natural number to a `UINT`. -/
def u32 (n : Nat) : Nat := n % 2 ^ 32

/-- The macro `HIWORD`: bits 16..31. -/
def HIWORD (l : Nat) : Nat := (l / 2 ^ 16) % 2 ^ 16

/-- The macro `LOWORD`: bits 0..15. -/
def LOWORD (l : Nat) : Nat := l % 2 ^ 16

/-- The character `L'|'`. -/
def BAR : WCHAR := 124

/-- The literal `L"(file)"`. -/
def strFilePlaceholder : WStr := [40, 102, 105, 108, 101, 41]

/-- The literal `L" ..."`. -/
def strEllipsis : WStr := [32, 46, 46, 46]

/-- The literal `"copyto"` (ANSI bytes). -/
def strCopyToVerb : List Nat := [99, 111, 112, 121, 116, 111]

/-! ## Character buffers -/

/-- A `WCHAR szPath[MAX_PATH]` array: exactly `MAX_PATH` cells. -/
structure Buf where
  cells : List WCHAR
  size_eq : cells.length = MAX_PATH

/-- The C string held in an array: the cells before the first zero. -/
def cstr (cells : List WCHAR) : WStr := cells.takeWhile (fun c => c != 0)

/-- The service `lstrlenW` on an array.  When the array holds no zero the real
call reads past its end; here it then answers the array size. -/
def lstrlenW (b : Buf) : Nat := (cstr b.cells).length

/-- An array holding the string `s` (cut to fit), zero everywhere after it. -/
def Buf.ofStr (s : WStr) : Buf :=
  ⟨(s.take (MAX_PATH - 1)) ++ List.replicate (MAX_PATH - (s.take (MAX_PATH - 1)).length) 0, by
    simp only [List.length_append, List.length_replicate, List.length_take, MAX_PATH]
    omega⟩

/-- The assignment `b[i] = v`, for an index inside the array. -/
def Buf.write (b : Buf) (i : Nat) (v : WCHAR) : Buf :=
  ⟨b.cells.set i v, by rw [List.length_set]; exact b.size_eq⟩

/-! ## Menus (user32) -/

/-- The fields of `MENUITEMINFOW` this component reads or writes; all others
stay zero after `ZeroMemory`. -/
structure MENUITEMINFOW where
  fMask : Nat
  fType : Nat
  wID : Nat
  dwTypeData : WStr
  cch : Nat
deriving DecidableEq

/-- A menu: its items in order, and the results of the coming
`InsertMenuItemW` calls on it (`true`: the call succeeds); once that list is
used up every call succeeds. -/
structure HMENU where
  items : List MENUITEMINFOW
  outcomes : List Bool
deriving DecidableEq

/-- The service `GetMenuItemInfoW(hMenu, pos, TRUE, &mii)`: the item at a
position, failing when there is none. -/
def GetMenuItemInfoW (hMenu : HMENU) (pos : Nat) : Option MENUITEMINFOW :=
  hMenu.items.get? pos

/-- The service `InsertMenuItemW(hMenu, pos, TRUE, &mii)`: on success the item
is put at `pos`, or at the end when `pos` is past the end. -/
def InsertMenuItemW (hMenu : HMENU) (pos : Nat) (mii : MENUITEMINFOW) : Bool × HMENU :=
  match hMenu.outcomes with
  | false :: rest => (false, { hMenu with outcomes := rest })
  | true :: rest =>
      (true, { items := hMenu.items.take pos ++ mii :: hMenu.items.drop pos, outcomes := rest })
  | [] =>
      (true, { items := hMenu.items.take pos ++ mii :: hMenu.items.drop pos, outcomes := [] })

/-! ## Shell data -/

/-- The decoded `CIDA` bundle: what `HIDA_GetPIDLFolder` answers, what
`HIDA_GetPIDLItem(pCIDA, n)` answers for each `n < cidl`, and what it answers
for an index past the last offset (`stray`).  The value `none` is a null
pointer: the source tests for it, although the header helpers add an offset
to the base of the bundle and so answer null for no well-formed bundle.  The
field `cidl` of the source is the length of `items`. -/
structure CIDA where
  folder : Option PIDL
  items : List (Option PIDL)
  stray : Option PIDL
deriving DecidableEq

/-- The count field `pCIDA->cidl`. -/
def CIDA.cidl (c : CIDA) : Nat := c.items.length

/-- The inline helper `HIDA_GetPIDLFolder`. -/
def HIDA_GetPIDLFolder (c : CIDA) : Option PIDL := c.folder

/-- The inline helper `HIDA_GetPIDLItem`: the entry `n`; for `n >= cidl` it
reads past the offsets of the bundle and answers whatever stands there. -/
def HIDA_GetPIDLItem (c : CIDA) (n : Nat) : Option PIDL :=
  match c.items.get? n with
  | some item => item
  | none => c.stray

/-- A data object: the result code of its `GetData` for the shell id list
format, and the bundle its medium holds. -/
structure IDataObject where
  hrGetData : HRESULT
  medium : CIDA
deriving DecidableEq

/-- The callbacks a `BROWSEINFOW` can name. -/
inductive BFFCALLBACK where
  | BrowseCallbackProc
deriving DecidableEq

/-- The structure `BROWSEINFOW` as `DoCopyToFolder` fills it; `lParam` is the
folder and data object of the object the pointer `this` addresses. -/
structure BROWSEINFOW where
  hwndOwner : Nat
  pidlRoot : Option PIDL
  lpszTitle : WStr
  ulFlags : Nat
  lpfn : Option BFFCALLBACK
  lParam : Option PIDL × Option IDataObject
deriving DecidableEq

/-- The structure `SHFILEOPSTRUCTW`; `pFrom` and `pTo` are the memory the
pointers address, up to and including the last cell the component wrote. -/
structure SHFILEOPSTRUCTW where
  hwnd : Nat
  wFunc : Nat
  pFrom : List WCHAR
  pTo : List WCHAR
  fFlags : Nat
deriving DecidableEq

/-- The structure `CMINVOKECOMMANDINFO`: the owner window, the value of the
`lpVerb` field, and the ANSI string at that address when it is a pointer. -/
structure CMINVOKECOMMANDINFO where
  hwnd : Nat
  lpVerb : Nat
  verbText : List Nat
deriving DecidableEq

/-- Calls that leave the component, and entries into its two workflow
functions, in the order they happen. -/
inductive Event where
  | DoCopyToFolder
  | DoRealCopy (pidl : Option PIDL)
  | SHBrowseForFolder (info : BROWSEINFOW)
  | SHFileOperation (op : SHFILEOPSTRUCTW)
  | InsertMenuItemW (pos : Nat) (mii : MENUITEMINFOW) (ok : Bool)
  | PostMessageW (msg wParam lParam : Nat)
  | SendMessageW (msg wParam : Nat) (lParam : Option PIDL)
  | SendMessageW_int (msg wParam lParam : Nat)
  | SetWindowTextW (text : WStr)
  | SetDlgItemText (id : Nat) (text : WStr)
  | CallWindowProcW (oldProc msg wParam lParam : Nat)
deriving DecidableEq

/-- The services of the host for one run. -/
structure Host where
  /-- The call `SHGetPathFromIDListW(pidl, buf)`: its result and the array afterwards. -/
  SHGetPathFromIDListW : Option PIDL → Buf → Bool × Buf
  /-- The call `SHGetSpecialFolderPathW(NULL, buf, CSIDL_DESKTOPDIRECTORY, FALSE)`. -/
  SHGetSpecialFolderPathW : Buf → Bool × Buf
  /-- The call `ILCombine`; `none` is a null result. -/
  ILCombine : PIDL → PIDL → Option PIDL
  /-- The call `ILClone`; `none` is a null result. -/
  ILClone : Option PIDL → Option PIDL
  /-- The call `ILIsEqual`. -/
  ILIsEqual : Option PIDL → Option PIDL → Bool
  /-- The call `_ILIsDesktop`. -/
  _ILIsDesktop : Option PIDL → Bool
  /-- The call `PathFileExistsW` on a string. -/
  PathFileExistsW : WStr → Bool
  /-- The call `PathFindFileNameW` on a string: the part it points to. -/
  PathFindFileNameW : WStr → WStr
  /-- The modal dialog `SHBrowseForFolder`: the chosen folder, `none` when dismissed. -/
  SHBrowseForFolder : BROWSEINFOW → Option PIDL
  /-- The bulk operation `SHFileOperation`: its status. -/
  SHFileOperation : SHFILEOPSTRUCTW → Int
  /-- Whether `CoTaskMemAlloc` returns memory. -/
  CoTaskMemAlloc_ok : Bool
  /-- What an uninitialised stack array holds. -/
  garbage : Buf
  /-- The resource string `IDS_COPYTOMENU`. -/
  strCopyToMenu : WStr
  /-- The resource string `IDS_COPYITEMS`. -/
  strCopyItems : WStr
  /-- The resource string `IDS_COPYBUTTON`. -/
  strCopyButton : WStr
  /-- The call `strTitle.Format(IDS_COPYTOTITLE, title)`. -/
  formatCopyToTitle : WStr → WStr
  /-- The result of `CallWindowProcW` for the previous window procedure. -/
  CallWindowProcW : Nat → Nat → Nat → Nat → Int
  /-- The address of the subclass procedure `WindowProc`. -/
  addrWindowProc : Nat
  /-- The width of a pointer, hence of an `LPARAM`, in bits: 32 or 64. -/
  pointerBits : Nat

/-! ## The object -/

/-- The members of `CCopyToMenu` this file uses. -/
structure CCopyToMenu where
  m_idCmdFirst : Nat
  m_idCmdLast : Nat
  m_idCmdCopyTo : Nat
  m_pidlFolder : Option PIDL
  m_pDataObject : Option IDataObject
  m_fnOldWndProc : Nat
deriving DecidableEq

/-- The constructor: `m_idCmdFirst(0), m_idCmdLast(0), m_idCmdCopyTo(-1)`, the
last converted to `UINT`. -/
def CCopyToMenu.new : CCopyToMenu :=
  { m_idCmdFirst := 0
    m_idCmdLast := 0
    m_idCmdCopyTo := u32 (2 ^ 32 - 1)
    m_pidlFolder := none
    m_pDataObject := none
    m_fnOldWndProc := 0 }

/-- The method `Initialize`; the key `hkeyProgID` is not read. -/
def Initialize (host : Host) (self : CCopyToMenu) (pidlFolder : Option PIDL)
    (pdtobj : Option IDataObject) : CCopyToMenu × HRESULT :=
  ({ self with m_pidlFolder := host.ILClone pidlFolder, m_pDataObject := pdtobj }, S_OK)

/-- What a call produced: the events in order, and the value returned
(`none`: the call dereferenced a null pointer and did not return). -/
structure Run where
  log : List Event
  ret : Option HRESULT
deriving DecidableEq

/-- The static helper `_GetCidlFromDataObject`: the result code and `*ppcida`. -/
def _GetCidlFromDataObject (host : Host) (pDataObject : Option IDataObject) :
    Option (HRESULT × Option CIDA) :=
  match pDataObject with
  | none => none
  | some obj =>
      if FAILED obj.hrGetData then some (obj.hrGetData, none)
      else if host.CoTaskMemAlloc_ok then some (S_OK, some obj.medium)
      else some (E_FAIL, none)

/-- The loop of `DoRealCopy` over the items from index `n` on, with the
string and the path array built so far; `none` is the `return E_FAIL` inside. -/
def copyLoop (host : Host) (pidlParent : PIDL) (pidl : Option PIDL) :
    Nat → List (Option PIDL) → WStr → Buf → Option (WStr × Buf)
  | _, [], strFiles, szPath => some (strFiles, szPath)
  | n, none :: rest, strFiles, szPath =>
      copyLoop host pidlParent pidl (n + 1) rest strFiles szPath
  | n, some pidlRelative :: rest, strFiles, szPath =>
      let pidlCombine := host.ILCombine pidlParent pidlRelative
      if pidl.isNone then none
      else
        let szPath1 := (host.SHGetPathFromIDListW pidlCombine szPath).2
        let strFiles1 := if n > 0 then strFiles ++ [BAR] else strFiles
        copyLoop host pidlParent pidl (n + 1) rest (strFiles1 ++ cstr szPath1.cells) szPath1

/-- The call `strFiles.Replace(L'|', L'\0')`. -/
def replaceBar (s : WStr) : WStr := s.map (fun c => if c = BAR then 0 else c)

/-- The resolution of the destination in `DoRealCopy`: the path array after
`SHGetSpecialFolderPathW` for the desktop node, after `SHGetPathFromIDListW`
otherwise. -/
def resolveDestination (host : Host) (pidl : Option PIDL) (szPath0 : Buf) : Buf :=
  if host._ILIsDesktop pidl then (host.SHGetSpecialFolderPathW szPath0).2
  else (host.SHGetPathFromIDListW pidl szPath0).2

/-- The tail of `DoRealCopy` from the resolution of the destination on. -/
def copyTail (host : Host) (lpici : CMINVOKECOMMANDINFO) (pidl : Option PIDL)
    (strFiles : WStr) (szPath0 : Buf) : Run :=
  let szPath := resolveDestination host pidl szPath0
  let cchPath := lstrlenW szPath
  if cchPath + 1 < MAX_PATH then
    let szPath2 := szPath.write (cchPath + 1) 0
    let op : SHFILEOPSTRUCTW :=
      { hwnd := lpici.hwnd
        wFunc := FO_COPY
        pFrom := strFiles ++ [0]
        pTo := szPath2.cells
        fFlags := FOF_ALLOWUNDO }
    ⟨[Event.SHFileOperation op], some (if host.SHFileOperation op = 0 then S_OK else E_FAIL)⟩
  else
    ⟨[], some E_FAIL⟩

/-- The method `DoRealCopy`. -/
def DoRealCopy (host : Host) (self : CCopyToMenu) (lpici : CMINVOKECOMMANDINFO)
    (pidl : Option PIDL) : Run :=
  match _GetCidlFromDataObject host self.m_pDataObject with
  | none => ⟨[Event.DoRealCopy pidl], none⟩
  | some (hr, ppcida) =>
      if FAILED hr then ⟨[Event.DoRealCopy pidl], some hr⟩
      else
        match ppcida with
        | none => ⟨[Event.DoRealCopy pidl], none⟩
        | some pCIDA =>
            match HIDA_GetPIDLFolder pCIDA with
            | none => ⟨[Event.DoRealCopy pidl], some E_FAIL⟩
            | some pidlParent =>
                match copyLoop host pidlParent pidl 0 pCIDA.items [] host.garbage with
                | none => ⟨[Event.DoRealCopy pidl], some E_FAIL⟩
                | some (strFiles, szPath) =>
                    let strFiles2 := replaceBar (strFiles ++ [BAR])
                    let r := copyTail host lpici pidl strFiles2 szPath
                    ⟨Event.DoRealCopy pidl :: r.log, r.ret⟩

/-- The method `DoGetFileTitle`; `none` when it dereferences a null pointer. -/
def DoGetFileTitle (host : Host) (self : CCopyToMenu) : Option WStr :=
  let ret := strFilePlaceholder
  match _GetCidlFromDataObject host self.m_pDataObject with
  | none => none
  | some (hr, ppcida) =>
      if FAILED hr then some ret
      else
        match ppcida with
        | none => none
        | some pCIDA =>
            match HIDA_GetPIDLFolder pCIDA with
            | none => some ret
            | some pidlParent =>
                match HIDA_GetPIDLItem pCIDA 0 with
                | none => some ret
                | some pidlRelative =>
                    let pidlCombine := host.ILCombine pidlParent pidlRelative
                    let res := host.SHGetPathFromIDListW pidlCombine host.garbage
                    let ret1 := if res.1 then host.PathFindFileNameW (cstr res.2.cells) else ret
                    some (if pCIDA.cidl > 1 then ret1 ++ strEllipsis else ret1)

/-- The structure `BROWSEINFOW` that `DoCopyToFolder` fills for a file title:
`strTitle.Format(IDS_COPYTOTITLE, strFileTitle)` as the title, no root, the
flags `BIF_RETURNONLYFSDIRS | BIF_USENEWUI`, the callback `BrowseCallbackProc`
and `this`. -/
def browseInfoFor (host : Host) (self : CCopyToMenu) (lpici : CMINVOKECOMMANDINFO)
    (title : WStr) : BROWSEINFOW :=
  { hwndOwner := lpici.hwnd
    pidlRoot := none
    lpszTitle := host.formatCopyToTitle title
    ulFlags := BIF_RETURNONLYFSDIRS ||| BIF_USENEWUI
    lpfn := some BFFCALLBACK.BrowseCallbackProc
    lParam := (self.m_pidlFolder, self.m_pDataObject) }

/-- The method `DoCopyToFolder`. -/
def DoCopyToFolder (host : Host) (self : CCopyToMenu) (lpici : CMINVOKECOMMANDINFO) : Run :=
  if (host.SHGetPathFromIDListW self.m_pidlFolder host.garbage).1 = false then
    ⟨[Event.DoCopyToFolder], some E_FAIL⟩
  else
    match DoGetFileTitle host self with
    | none => ⟨[Event.DoCopyToFolder], none⟩
    | some strFileTitle =>
        let info := browseInfoFor host self lpici strFileTitle
        match host.SHBrowseForFolder info with
        | some pidl =>
            let r := DoRealCopy host self lpici (some pidl)
            ⟨Event.DoCopyToFolder :: Event.SHBrowseForFolder info :: r.log, r.ret⟩
        | none => ⟨[Event.DoCopyToFolder, Event.SHBrowseForFolder info], some E_FAIL⟩

/-! ## Menu population and command invocation -/

/-- The conversion of a 32-bit pattern to a signed value. -/
def toLONG (n : Nat) : Int :=
  if n % 2 ^ 32 < 2 ^ 31 then ((n % 2 ^ 32 : Nat) : Int) else ((n % 2 ^ 32 : Nat) : Int) - 2 ^ 32

/-- The macro `MAKE_HRESULT(sev, fac, code)`. -/
def MAKE_HRESULT (sev fac code : Nat) : HRESULT :=
  toLONG ((sev <<< 31) ||| (fac <<< 16) ||| code)

/-- What `QueryContextMenu` leaves behind: the object, the menu, the
insertion calls it made, and its result. -/
structure QueryResult where
  self : CCopyToMenu
  hMenu : HMENU
  log : List Event
  hr : HRESULT
deriving DecidableEq

/-- The separator item `QueryContextMenu` builds. -/
def separatorItem : MENUITEMINFOW :=
  { fMask := MIIM_TYPE, fType := MFT_SEPARATOR, wID := 0, dwTypeData := [], cch := 0 }

/-- The "Copy to folder..." item `QueryContextMenu` builds for an id. -/
def copyToItem (host : Host) (wID : Nat) : MENUITEMINFOW :=
  { fMask := MIIM_ID ||| MIIM_TYPE
    fType := MFT_STRING
    wID := wID
    dwTypeData := host.strCopyToMenu
    cch := (cstr host.strCopyToMenu).length }

/-- The block "insert separator if necessary" of `QueryContextMenu`: the menu,
`indexMenu` and `Count` after it, and the insertion call it made, if any.
The position `indexMenu - 1` is computed in `UINT`. -/
def insertSeparatorIfNecessary (hMenu : HMENU) (indexMenu : Nat) :
    HMENU × Nat × Nat × List Event :=
  match GetMenuItemInfoW hMenu (u32 (indexMenu + (2 ^ 32 - 1))) with
  | some mii =>
      if mii.fType ≠ MFT_SEPARATOR then
        match InsertMenuItemW hMenu indexMenu separatorItem with
        | (true, h) =>
            (h, u32 (indexMenu + 1), 1, [Event.InsertMenuItemW indexMenu separatorItem true])
        | (false, h) => (h, indexMenu, 0, [Event.InsertMenuItemW indexMenu separatorItem false])
      else (hMenu, indexMenu, 0, [])
  | none => (hMenu, indexMenu, 0, [])

/-- The method `QueryContextMenu`.  The parameters `idCmdLast` and `uFlags`
are only traced by the source. -/
def QueryContextMenu (host : Host) (self : CCopyToMenu) (hMenu : HMENU)
    (indexMenu idCmdFirst _idCmdLast _uFlags : Nat) : QueryResult :=
  let self1 := { self with m_idCmdFirst := idCmdFirst, m_idCmdLast := idCmdFirst }
  -- insert separator if necessary
  let s := insertSeparatorIfNecessary hMenu indexMenu
  let hMenu1 := s.1
  let indexMenu1 := s.2.1
  let Count1 := s.2.2.1
  -- insert "Copy to folder..."
  let mii := copyToItem host self1.m_idCmdLast
  match InsertMenuItemW hMenu1 indexMenu1 mii with
  | (true, h) =>
      { self :=
          { self1 with
            m_idCmdCopyTo := self1.m_idCmdLast
            m_idCmdLast := u32 (self1.m_idCmdLast + 1) }
        hMenu := h
        log := s.2.2.2 ++ [Event.InsertMenuItemW indexMenu1 mii true]
        hr := MAKE_HRESULT 0 0 (Count1 + 1) }
  | (false, h) =>
      { self := self1
        hMenu := h
        log := s.2.2.2 ++ [Event.InsertMenuItemW indexMenu1 mii false]
        hr := MAKE_HRESULT 0 0 Count1 }

/-- Case folding of one ANSI byte: `A`..`Z` to `a`..`z`. -/
def foldCase (c : Nat) : Nat := if 65 ≤ c ∧ c ≤ 90 then c + 32 else c

/-- The service `lstrcmpiA` on ASCII text: comparison after case folding;
negative, zero or positive. -/
def lstrcmpiA : List Nat → List Nat → Int
  | [], [] => 0
  | [], _ :: _ => -1
  | _ :: _, [] => 1
  | a :: as, b :: bs =>
      if foldCase a < foldCase b then -1
      else if foldCase b < foldCase a then 1
      else lstrcmpiA as bs

/-- The method `InvokeCommand`. -/
def InvokeCommand (host : Host) (self : CCopyToMenu) (lpici : CMINVOKECOMMANDINFO) : Run :=
  if HIWORD lpici.lpVerb = 0 then
    if u32 (self.m_idCmdFirst + LOWORD lpici.lpVerb) = self.m_idCmdCopyTo then
      DoCopyToFolder host self lpici
    else ⟨[], some E_FAIL⟩
  else
    if lstrcmpiA lpici.verbText strCopyToVerb = 0 then
      DoCopyToFolder host self lpici
    else ⟨[], some E_FAIL⟩

/-! ## The browse dialog callbacks -/

/-- The dialog window as the callbacks see it: the object its
`GWLP_USERDATA` slot addresses (`none`: the slot is still zero) and its
`GWLP_WNDPROC` slot. -/
structure Window where
  userData : Option CCopyToMenu
  wndProc : Nat
deriving DecidableEq

/-- What a callback produced: the window afterwards, the calls made, the
value returned. -/
structure CallbackRun where
  win : Window
  log : List Event
  ret : Int
deriving DecidableEq

/-- The argument `(BOOL)lParam` of `SendMessageW`: the low 32 bits of
`lParam` read as a signed `int` and widened to an `LPARAM` again.  Both sides
are bit patterns of the width of a pointer. -/
def widenBOOL (host : Host) (lParam : Nat) : Nat :=
  if lParam % 2 ^ 32 < 2 ^ 31 then lParam % 2 ^ 32
  else lParam % 2 ^ 32 + (2 ^ host.pointerBits - 2 ^ 32)

/-- The subclass procedure `WindowProc`; `none` when it dereferences a null
`this_`. -/
def WindowProc (host : Host) (win : Window) (uMsg wParam lParam : Nat) : Option CallbackRun :=
  if uMsg = WM_ENABLEOK then
    some ⟨win, [Event.SendMessageW_int BFFM_ENABLEOK 0 (widenBOOL host lParam)], 0⟩
  else
    match win.userData with
    | none => none
    | some this_ =>
        some ⟨win, [Event.CallWindowProcW this_.m_fnOldWndProc uMsg wParam lParam],
          host.CallWindowProcW this_.m_fnOldWndProc uMsg wParam lParam⟩

/-- The callback `BrowseCallbackProc`; `lParam` is the highlighted node for
`BFFM_SELCHANGED`, `lpData` the object `DoCopyToFolder` passed.  The result
is `none` when the callback dereferences a null `this_`. -/
def BrowseCallbackProc (host : Host) (win : Window) (uMsg : Nat) (lParam : Option PIDL)
    (lpData : CCopyToMenu) : Option CallbackRun :=
  if uMsg = BFFM_INITIALIZED then
    let this_ := { lpData with m_fnOldWndProc := win.wndProc }
    some
      ⟨{ userData := some this_, wndProc := host.addrWindowProc },
        [Event.SendMessageW BFFM_SETSELECTION 0 lpData.m_pidlFolder,
         Event.SetWindowTextW host.strCopyItems,
         Event.SetDlgItemText IDOK host.strCopyButton,
         Event.PostMessageW WM_ENABLEOK 0 0],
        0⟩
  else if uMsg = BFFM_SELCHANGED then
    let pidl := lParam
    let szPath := (host.SHGetPathFromIDListW pidl (host.garbage.write 0 0)).2
    match win.userData with
    | none => none
    | some this_ =>
        if host.ILIsEqual pidl this_.m_pidlFolder then
          some ⟨win, [Event.PostMessageW WM_ENABLEOK 0 0], 0⟩
        else if host.PathFileExistsW (cstr szPath.cells) || host._ILIsDesktop pidl then
          some ⟨win, [Event.PostMessageW WM_ENABLEOK 0 1], 0⟩
        else
          some ⟨win, [Event.PostMessageW WM_ENABLEOK 0 0], 0⟩
  else
    some ⟨win, [], 0⟩

/-! ## Vocabulary of the specification -/

/-- The run entered the copy-to-folder workflow. -/
abbrev Run.started (r : Run) : Prop := Event.DoCopyToFolder ∈ r.log

/-- The entries into `DoRealCopy` during a run, each with its destination. -/
def realCopies : List Event → List (Option PIDL)
  | [] => []
  | Event.DoRealCopy pidl :: rest => pidl :: realCopies rest
  | _ :: rest => realCopies rest

/-- The dialogs a run opened. -/
def dialogs : List Event → List BROWSEINFOW
  | [] => []
  | Event.SHBrowseForFolder info :: rest => info :: dialogs rest
  | _ :: rest => dialogs rest

/-- Equality of two ANSI strings under case-insensitive comparison. -/
def equalsIgnoreCase (a b : List Nat) : Prop := a.map foldCase = b.map foldCase

/-- The item immediately before an insertion point, if there is one. -/
def precedingItem (hMenu : HMENU) (indexMenu : Nat) : Option MENUITEMINFOW :=
  if indexMenu = 0 then none else hMenu.items.get? (indexMenu - 1)

/-- The population put a separator into the menu. -/
abbrev QueryResult.separatorInserted (r : QueryResult) : Prop :=
  ∃ pos, Event.InsertMenuItemW pos separatorItem true ∈ r.log

/-- The bulk operations a run issued, in order. -/
def fileOps : List Event → List SHFILEOPSTRUCTW
  | [] => []
  | Event.SHFileOperation op :: rest => op :: fileOps rest
  | _ :: rest => fileOps rest

/-- The messages a callback posted, in order, as (message, wParam, lParam). -/
def posted : List Event → List (Nat × Nat × Nat)
  | [] => []
  | Event.PostMessageW m w l :: rest => (m, w, l) :: posted rest
  | _ :: rest => posted rest

/-- The messages a callback sent synchronously, by message number. -/
def sentNow : List Event → List Nat
  | [] => []
  | Event.SendMessageW m _ _ :: rest => m :: sentNow rest
  | Event.SendMessageW_int m _ _ :: rest => m :: sentNow rest
  | _ :: rest => sentNow rest

/-- Reading of a multi-path list with the string read so far: strings each
ended by a zero, up to an empty string. -/
def multiSzAux : List WCHAR → WStr → List WStr
  | [], _ => []
  | c :: rest, cur =>
      if c = 0 then (if cur = [] then [] else cur :: multiSzAux rest [])
      else multiSzAux rest (cur ++ [c])

/-- The paths the bulk operation reads from a multi-path list. -/
def multiSz (mem : List WCHAR) : List WStr := multiSzAux mem []

/-- The item is a separator: its type carries the flag `MFT_SEPARATOR`. -/
def isSeparator (mii : MENUITEMINFOW) : Bool := mii.fType &&& MFT_SEPARATOR != 0

/-- The number of separator items of a menu. -/
def separatorCount (hMenu : HMENU) : Nat :=
  (hMenu.items.filter isSeparator).length

/-- The id under which a population put the "Copy to folder..." entry into
the menu, if it did: the id of the string item of a successful insertion. -/
def insertedEntryId : List Event → Option Nat
  | [] => none
  | Event.InsertMenuItemW _ mii true :: rest =>
      if mii.fType = MFT_STRING then some mii.wID else insertedEntryId rest
  | _ :: rest => insertedEntryId rest

/-- The arguments of one `QueryContextMenu` call. -/
structure QueryArgs where
  hMenu : HMENU
  indexMenu : Nat
  idCmdFirst : Nat
  idCmdLast : Nat
  uFlags : Nat
deriving DecidableEq

/-- The object after a sequence of `QueryContextMenu` calls. -/
def runQueries (host : Host) : CCopyToMenu → List QueryArgs → CCopyToMenu
  | self, [] => self
  | self, a :: rest =>
      runQueries host
        (QueryContextMenu host self a.hMenu a.indexMenu a.idCmdFirst a.idCmdLast a.uFlags).self rest

/-- The id recorded over a sequence of populations, in the words of the
specification: the id of the entry put into a menu most recently, starting
from `cur` (`none`: nothing recorded). -/
def recordedId (host : Host) : CCopyToMenu → Option Nat → List QueryArgs → Option Nat
  | _, cur, [] => cur
  | self, cur, a :: rest =>
      let r := QueryContextMenu host self a.hMenu a.indexMenu a.idCmdFirst a.idCmdLast a.uFlags
      recordedId host r.self
        (match insertedEntryId r.log with
         | some id => some id
         | none => cur) rest

/-- The `idCmdFirst` of the most recent population, `dflt` when there was none. -/
def lastIdCmdFirst (dflt : Nat) : List QueryArgs → Nat
  | [] => dflt
  | a :: rest => lastIdCmdFirst a.idCmdFirst rest

/-! ## A concrete host for evaluation -/

/-- The part of a path after its last backslash. -/
def afterLastBackslash : WStr → WStr → WStr
  | [], acc => acc
  | c :: rest, acc => if c = 92 then afterLastBackslash rest [] else afterLastBackslash rest (acc ++ [c])

/-- A host in which an identifier list spells its own path, a combined
identifier is parent, backslash, child, every non-empty path exists, the
dialog answers the folder `D`, and every service succeeds. -/
def sampleHost : Host :=
  { SHGetPathFromIDListW := fun pidl _ =>
      match pidl with
      | some (c :: p) => (true, Buf.ofStr (c :: p))
      | _ => (false, Buf.ofStr [])
    SHGetSpecialFolderPathW := fun _ => (true, Buf.ofStr [67, 58, 92, 68, 101, 115, 107])
    ILCombine := fun a b => some (a ++ 92 :: b)
    ILClone := fun p => p
    ILIsEqual := fun a b => decide (a = b)
    _ILIsDesktop := fun p => decide (p = none ∨ p = some [])
    PathFileExistsW := fun s => decide (s ≠ [])
    PathFindFileNameW := fun s => afterLastBackslash s []
    SHBrowseForFolder := fun _ => some [68]
    SHFileOperation := fun _ => 0
    CoTaskMemAlloc_ok := true
    garbage := Buf.ofStr []
    strCopyToMenu := [67, 111, 112, 121]
    strCopyItems := [67]
    strCopyButton := [67]
    formatCopyToTitle := fun t => t
    CallWindowProcW := fun _ _ _ _ => 0
    addrWindowProc := 1
    pointerBits := 64 }

/-- The sample host with a dialog that is dismissed. -/
def cancelHost : Host := { sampleHost with SHBrowseForFolder := fun _ => none }

/-- A data object for the folder `F` with the items `a` and `b`. -/
def twoItems : IDataObject :=
  { hrGetData := 0
    medium := { folder := some [70], items := [some [97], some [98]], stray := none } }

/-- An initialised object: folder `F`, items `a` and `b`. -/
def sampleObject : CCopyToMenu :=
  (Initialize sampleHost CCopyToMenu.new (some [70]) (some twoItems)).1

/-- A data object for the folder `F` with the items `a`, `x` and `b`. -/
def threeItems : IDataObject :=
  { hrGetData := 0
    medium := { folder := some [70], items := [some [97], some [120], some [98]], stray := none } }

/-- The sample host in which `ILCombine` finds no memory for the item `x`;
the failed `SHGetPathFromIDListW` leaves an empty string, as in the sample
host. -/
def noMemoryHost : Host :=
  { sampleHost with
    ILCombine := fun a b => if b = [120] then none else some (a ++ 92 :: b) }

/-- The same host with a `SHGetPathFromIDListW` that leaves the array as it
was when it fails. -/
def staleHost : Host :=
  { noMemoryHost with
    SHGetPathFromIDListW := fun pidl b =>
      match pidl with
      | some (c :: p) => (true, Buf.ofStr (c :: p))
      | _ => (false, b) }

/-- A data object with two items and no parent identifier. -/
def parentMissing : IDataObject :=
  { hrGetData := 0
    medium := { folder := none, items := [some [97], some [98]], stray := none } }

/-- The object initialised with the folder `F` and a given data object. -/
def objectWith (obj : IDataObject) : CCopyToMenu :=
  (Initialize sampleHost CCopyToMenu.new (some [70]) (some obj)).1

/-- A menu with one string item, on which every insertion succeeds. -/
def oneItemMenu : HMENU :=
  { items := [{ fMask := 0, fType := MFT_STRING, wID := 7, dwTypeData := [], cch := 0 }], outcomes := [] }

/-- One population with `idCmdFirst = 0xFFFFFFFF` on a menu that refuses the
insertion. -/
def refusedQuery : List QueryArgs :=
  [{ hMenu := { items := [], outcomes := [false] }
     indexMenu := 0
     idCmdFirst := 2 ^ 32 - 1
     idCmdLast := 2 ^ 32 - 1
     uFlags := 0 }]

/-- A menu on which the next insertion fails. -/
def refusingMenu : HMENU := { items := [], outcomes := [false] }

/-- A dialog window before `BFFM_INITIALIZED`: no user data, the dialog's own
window procedure at address 9. -/
def freshWindow : Window := { userData := none, wndProc := 9 }

/-- The dialog window after `BFFM_INITIALIZED` for the sample object. -/
def sampleWindow : Window :=
  { userData := some { sampleObject with m_fnOldWndProc := 9 }
    wndProc := sampleHost.addrWindowProc }

/-- An invocation by numeric offset. -/
def numericVerb (k : Nat) : CMINVOKECOMMANDINFO := { hwnd := 0, lpVerb := k, verbText := [] }

/-! ## Lemmas on strings and buffers -/

theorem zero_not_mem_cstr (l : List WCHAR) : (0 : WCHAR) ∉ cstr l := by
  intro h
  have := List.mem_takeWhile_imp h
  simp at this

theorem cstr_set_succ (l : List WCHAR) (h : (cstr l).length < l.length) :
    cstr (l.set ((cstr l).length + 1) 0) = cstr l := by
  induction l with
  | nil => simp at h
  | cons a t ih =>
      unfold cstr at ih h ⊢
      rw [List.takeWhile_cons] at h ⊢
      by_cases ha : a = 0
      · subst ha; simp
      · have : (a != 0) = true := by simpa using ha
        simp only [this, if_true, List.length_cons] at h ⊢
        rw [List.set_cons_succ, List.takeWhile_cons]
        simp only [this, if_true]
        rw [ih (by omega)]

/-! ## Lemmas on multi-path lists -/

theorem multiSzAux_append (p rest cur : List WCHAR) (hp : (0 : WCHAR) ∉ p) :
    multiSzAux (p ++ rest) cur = multiSzAux rest (cur ++ p) := by
  induction p generalizing cur with
  | nil => simp
  | cons a t ih =>
      have ha : a ≠ 0 := fun e => hp (by simp [e])
      have ht : (0 : WCHAR) ∉ t := fun e => hp (by simp [e])
      show multiSzAux (a :: (t ++ rest)) cur = _
      rw [multiSzAux]
      simp only [ha, if_false]
      rw [ih _ ht]
      simp

theorem multiSz_layout (paths : List WStr) (h0 : ∀ p ∈ paths, (0 : WCHAR) ∉ p)
    (hne : ∀ p ∈ paths, p ≠ []) :
    multiSz ((paths.map (fun p => p ++ [0])).flatten ++ [0]) = paths := by
  unfold multiSz
  induction paths with
  | nil => simp [multiSzAux]
  | cons p t ih =>
      have hp0 : (0 : WCHAR) ∉ p := h0 p (by simp)
      have hpne : p ≠ [] := hne p (by simp)
      simp only [List.map_cons, List.flatten_cons, List.append_assoc]
      rw [multiSzAux_append _ _ _ hp0]
      rw [List.nil_append, List.singleton_append, multiSzAux]
      simp only [if_true, hpne, if_false]
      rw [ih (fun q hq => h0 q (by simp [hq])) (fun q hq => hne q (by simp [hq]))]

theorem replaceBar_append (a b : WStr) : replaceBar (a ++ b) = replaceBar a ++ replaceBar b := by
  simp [replaceBar]

theorem replaceBar_of_not_mem (p : WStr) (h : BAR ∉ p) : replaceBar p = p := by
  induction p with
  | nil => rfl
  | cons a t ih =>
      have ha : a ≠ BAR := fun e => h (by simp [e])
      have ht : BAR ∉ t := fun e => h (by simp [e])
      have := ih ht
      simp only [replaceBar] at this ⊢
      simp [ha, this]

theorem replaceBar_layout (paths : List WStr) (h : ∀ p ∈ paths, BAR ∉ p) :
    replaceBar ((paths.map (fun p => p ++ [BAR])).flatten)
      = (paths.map (fun p => p ++ [0])).flatten := by
  induction paths with
  | nil => rfl
  | cons p t ih =>
      simp only [List.map_cons, List.flatten_cons, replaceBar_append]
      rw [ih (fun q hq => h q (by simp [hq])), replaceBar_of_not_mem p (h p (by simp))]
      simp [replaceBar]

theorem bar_layout (q : List WStr) (p : WStr) :
    p ++ (q.map (fun x => BAR :: x)).flatten ++ [BAR]
      = ((p :: q).map (fun x => x ++ [BAR])).flatten := by
  induction q generalizing p with
  | nil => simp
  | cons a t ih =>
      have := ih a
      simp only [List.map_cons, List.flatten_cons, List.append_assoc] at this ⊢
      rw [← this]
      simp

/-! ## Lemmas on the loop of `DoRealCopy` -/

theorem copyLoop_succ (host : Host) (parent : PIDL) (D : PIDL) (P : PIDL → WStr)
    (items : List (Option PIDL))
    (hres : ∀ rel, some rel ∈ items → ∀ b,
      cstr (host.SHGetPathFromIDListW (host.ILCombine parent rel) b).2.cells = P rel)
    (n : Nat) (s : WStr) (b : Buf) :
    ∃ b', copyLoop host parent (some D) (n + 1) items s b
      = some (s ++ ((items.reduceOption.map P).map (fun x => BAR :: x)).flatten, b') := by
  induction items generalizing n s b with
  | nil => exact ⟨b, by simp [copyLoop]⟩
  | cons it rest ih =>
      have hrest : ∀ rel, some rel ∈ rest → ∀ b,
          cstr (host.SHGetPathFromIDListW (host.ILCombine parent rel) b).2.cells = P rel :=
        fun rel h => hres rel (by simp [h])
      cases it with
      | none =>
          obtain ⟨b', hb⟩ := ih hrest (n + 1) s b
          exact ⟨b', by simpa [copyLoop, List.reduceOption_cons_of_none] using hb⟩
      | some rel =>
          have hrel := hres rel (by simp)
          obtain ⟨b', hb⟩ := ih hrest (n + 1)
            (s ++ [BAR] ++ cstr (host.SHGetPathFromIDListW (host.ILCombine parent rel) b).2.cells)
            (host.SHGetPathFromIDListW (host.ILCombine parent rel) b).2
          refine ⟨b', ?_⟩
          simp only [copyLoop, Option.isNone_some, Bool.false_eq_true, if_false,
            Nat.succ_pos, gt_iff_lt, if_true, List.reduceOption_cons_of_some, List.map_cons,
            List.flatten_cons]
          rw [hb, hrel]
          simp

theorem copyLoop_first (host : Host) (parent : PIDL) (D : PIDL) (P : PIDL → WStr)
    (i0 : PIDL) (rest : List (Option PIDL))
    (hres : ∀ rel, some rel ∈ some i0 :: rest → ∀ b,
      cstr (host.SHGetPathFromIDListW (host.ILCombine parent rel) b).2.cells = P rel)
    (hbar : ∀ rel, some rel ∈ some i0 :: rest → BAR ∉ P rel) (b : Buf) :
    ∃ s b', copyLoop host parent (some D) 0 (some i0 :: rest) [] b = some (s, b') ∧
      replaceBar (s ++ [BAR])
        = ((((some i0 :: rest).reduceOption).map P).map (fun p => p ++ [0])).flatten := by
  have hrest : ∀ rel, some rel ∈ rest → ∀ b,
      cstr (host.SHGetPathFromIDListW (host.ILCombine parent rel) b).2.cells = P rel :=
    fun rel h => hres rel (by simp [h])
  obtain ⟨b', hb⟩ := copyLoop_succ host parent D P rest hrest 0
    (cstr (host.SHGetPathFromIDListW (host.ILCombine parent i0) b).2.cells)
    (host.SHGetPathFromIDListW (host.ILCombine parent i0) b).2
  refine ⟨cstr (host.SHGetPathFromIDListW (host.ILCombine parent i0) b).2.cells ++
      (List.map (fun x => BAR :: x) (List.map P rest.reduceOption)).flatten, b', ?_, ?_⟩
  · simp only [copyLoop, Option.isNone_some, Bool.false_eq_true, if_false, gt_iff_lt,
      lt_self_iff_false, List.nil_append]
    exact hb
  · rw [hres i0 (by simp), bar_layout, List.reduceOption_cons_of_some, ← List.map_cons,
      replaceBar_layout]
    intro p hp
    simp only [List.mem_map, List.mem_cons] at hp
    obtain ⟨rel, hrel, rfl⟩ := hp
    apply hbar rel
    rcases hrel with h | h
    · simp [h]
    · simp [List.mem_cons, (List.reduceOption_mem_iff).1 h]

theorem set_after_cstr (l : List WCHAR) (h : (cstr l).length + 1 < l.length) :
    l.set ((cstr l).length + 1) 0 = cstr l ++ 0 :: 0 :: l.drop ((cstr l).length + 2) := by
  induction l with
  | nil => simp at h
  | cons a t ih =>
      unfold cstr at ih h ⊢
      rw [List.takeWhile_cons] at h ⊢
      by_cases ha : a = 0
      · subst ha
        cases t with
        | nil => simp at h
        | cons x t2 => simp
      · have : (a != 0) = true := by simpa using ha
        simp only [this, if_true, List.length_cons] at h ⊢
        rw [List.set_cons_succ, ih (by omega)]
        simp

theorem getElem?_after_append (p t : List WCHAR) (x y : WCHAR) :
    (p ++ x :: y :: t)[p.length]? = some x ∧ (p ++ x :: y :: t)[p.length + 1]? = some y := by
  induction p with
  | nil => simp
  | cons a q ih => simpa using ih

theorem count_zero_layout (paths : List WStr) (h0 : ∀ p ∈ paths, (0 : WCHAR) ∉ p) :
    ((paths.map (fun p => p ++ [0])).flatten).count 0 = paths.length := by
  induction paths with
  | nil => rfl
  | cons p t ih =>
      have hp : List.count 0 p = 0 := List.count_eq_zero.2 (h0 p (by simp))
      simp only [List.map_cons, List.flatten_cons, List.count_append, List.length_cons]
      rw [ih (fun q hq => h0 q (by simp [hq])), hp]
      simp [Nat.add_comm]

/-! ## Lemmas on `DoRealCopy` -/

theorem DoRealCopy_reaches (host : Host) (self : CCopyToMenu) (lpici : CMINVOKECOMMANDINFO)
    (pidl : Option PIDL) (obj : IDataObject) (parent : PIDL) (s : WStr) (b : Buf)
    (hobj : self.m_pDataObject = some obj) (hhr : FAILED obj.hrGetData = false)
    (halloc : host.CoTaskMemAlloc_ok = true) (hfolder : obj.medium.folder = some parent)
    (hloop : copyLoop host parent pidl 0 obj.medium.items [] host.garbage = some (s, b)) :
    DoRealCopy host self lpici pidl
      = ⟨Event.DoRealCopy pidl :: (copyTail host lpici pidl (replaceBar (s ++ [BAR])) b).log,
         (copyTail host lpici pidl (replaceBar (s ++ [BAR])) b).ret⟩ := by
  have h0 : FAILED S_OK = false := by decide
  simp [DoRealCopy, _GetCidlFromDataObject, hobj, hhr, halloc, HIDA_GetPIDLFolder, hfolder,
    hloop, h0]

theorem copyTail_fits (host : Host) (lpici : CMINVOKECOMMANDINFO) (pidl : Option PIDL)
    (strFiles : WStr) (b : Buf)
    (h : lstrlenW (resolveDestination host pidl b) + 1 < MAX_PATH) :
    copyTail host lpici pidl strFiles b
      = ⟨[Event.SHFileOperation
            { hwnd := lpici.hwnd
              wFunc := FO_COPY
              pFrom := strFiles ++ [0]
              pTo := (resolveDestination host pidl b).cells.set
                (lstrlenW (resolveDestination host pidl b) + 1) 0
              fFlags := FOF_ALLOWUNDO }],
         some (if host.SHFileOperation
            { hwnd := lpici.hwnd
              wFunc := FO_COPY
              pFrom := strFiles ++ [0]
              pTo := (resolveDestination host pidl b).cells.set
                (lstrlenW (resolveDestination host pidl b) + 1) 0
              fFlags := FOF_ALLOWUNDO } = 0 then S_OK else E_FAIL)⟩ := by
  simp [copyTail, h, Buf.write]

theorem copyTail_too_long (host : Host) (lpici : CMINVOKECOMMANDINFO) (pidl : Option PIDL)
    (strFiles : WStr) (b : Buf)
    (h : MAX_PATH ≤ lstrlenW (resolveDestination host pidl b) + 1) :
    copyTail host lpici pidl strFiles b = ⟨[], some E_FAIL⟩ := by
  simp [copyTail, Nat.not_lt.2 h]

theorem DoRealCopy_present (host : Host) (self : CCopyToMenu) (lpici : CMINVOKECOMMANDINFO)
    (D : PIDL) (obj : IDataObject) (parent i0 : PIDL) (rest : List (Option PIDL))
    (P : PIDL → WStr)
    (hobj : self.m_pDataObject = some obj) (hhr : FAILED obj.hrGetData = false)
    (halloc : host.CoTaskMemAlloc_ok = true) (hfolder : obj.medium.folder = some parent)
    (hitems : obj.medium.items = some i0 :: rest)
    (hres : ∀ rel, some rel ∈ obj.medium.items → ∀ b,
      cstr (host.SHGetPathFromIDListW (host.ILCombine parent rel) b).2.cells = P rel)
    (hbar : ∀ rel, some rel ∈ obj.medium.items → BAR ∉ P rel) :
    ∃ b, DoRealCopy host self lpici (some D)
      = ⟨Event.DoRealCopy (some D) :: (copyTail host lpici (some D)
            (((obj.medium.items.reduceOption.map P).map (fun p => p ++ [0])).flatten) b).log,
         (copyTail host lpici (some D)
            (((obj.medium.items.reduceOption.map P).map (fun p => p ++ [0])).flatten) b).ret⟩ := by
  rw [hitems] at hres hbar
  obtain ⟨s, b, hloop, hs⟩ := copyLoop_first host parent D P i0 rest hres hbar host.garbage
  refine ⟨b, ?_⟩
  rw [DoRealCopy_reaches host self lpici (some D) obj parent s b hobj hhr halloc hfolder
    (by rw [hitems]; exact hloop), hs, hitems]

theorem paths_wellformed (host : Host) (parent : PIDL) (items : List (Option PIDL))
    (P : PIDL → WStr)
    (hres : ∀ rel, some rel ∈ items → ∀ b,
      cstr (host.SHGetPathFromIDListW (host.ILCombine parent rel) b).2.cells = P rel) :
    ∀ p ∈ items.reduceOption.map P, (0 : WCHAR) ∉ p := by
  intro p hp
  simp only [List.mem_map] at hp
  obtain ⟨rel, hrel, rfl⟩ := hp
  rw [← hres rel ((List.reduceOption_mem_iff).1 hrel) host.garbage]
  exact zero_not_mem_cstr _

theorem paths_nonempty (items : List (Option PIDL)) (P : PIDL → WStr)
    (hne : ∀ rel, some rel ∈ items → P rel ≠ []) :
    ∀ p ∈ items.reduceOption.map P, p ≠ [] := by
  intro p hp
  simp only [List.mem_map] at hp
  obtain ⟨rel, hrel, rfl⟩ := hp
  exact hne rel ((List.reduceOption_mem_iff).1 hrel)

/-- C5: in `DoRealCopy`, once the destination has been resolved into the path
array (length `L` up to its terminator): if `L + 1 >= MAX_PATH` the call
returns `E_FAIL` and issues no bulk operation; if `L + 1 < MAX_PATH` the index
`L + 1` lies inside the array, exactly one bulk operation is issued, and its
destination is the array with a zero written at `L + 1`, so that it holds the
same path followed by zeros at `L` and at `L + 1`. -/
theorem C5_destination_capacity (host : Host) (self : CCopyToMenu)
    (lpici : CMINVOKECOMMANDINFO) (pidl : Option PIDL) (obj : IDataObject) (parent : PIDL)
    (s : WStr) (b : Buf)
    (hobj : self.m_pDataObject = some obj) (hhr : FAILED obj.hrGetData = false)
    (halloc : host.CoTaskMemAlloc_ok = true) (hfolder : obj.medium.folder = some parent)
    (hloop : copyLoop host parent pidl 0 obj.medium.items [] host.garbage = some (s, b)) :
    (MAX_PATH ≤ lstrlenW (resolveDestination host pidl b) + 1 →
        (DoRealCopy host self lpici pidl).ret = some E_FAIL ∧
        fileOps (DoRealCopy host self lpici pidl).log = []) ∧
    (lstrlenW (resolveDestination host pidl b) + 1 < MAX_PATH →
        lstrlenW (resolveDestination host pidl b) + 1
          < (resolveDestination host pidl b).cells.length ∧
        ∃ op, fileOps (DoRealCopy host self lpici pidl).log = [op] ∧
          op.pTo = (resolveDestination host pidl b).cells.set
            (lstrlenW (resolveDestination host pidl b) + 1) 0 ∧
          op.pTo[lstrlenW (resolveDestination host pidl b)]? = some 0 ∧
          op.pTo[lstrlenW (resolveDestination host pidl b) + 1]? = some 0 ∧
          cstr op.pTo = cstr (resolveDestination host pidl b).cells) := by
  rw [DoRealCopy_reaches host self lpici pidl obj parent s b hobj hhr halloc hfolder hloop]
  constructor
  · intro h
    rw [copyTail_too_long host lpici pidl _ b h]
    exact ⟨rfl, rfl⟩
  · intro h
    have hlen : (resolveDestination host pidl b).cells.length = MAX_PATH :=
      (resolveDestination host pidl b).size_eq
    have hlt : (cstr (resolveDestination host pidl b).cells).length + 1
        < (resolveDestination host pidl b).cells.length := by
      rw [hlen]; exact h
    refine ⟨by rw [hlen]; exact h, ?_⟩
    rw [copyTail_fits host lpici pidl _ b h]
    refine ⟨_, rfl, rfl, ?_, ?_, ?_⟩
    · show ((resolveDestination host pidl b).cells.set _ 0)[_]? = some 0
      unfold lstrlenW
      rw [set_after_cstr _ hlt]
      exact (getElem?_after_append _ _ 0 0).1
    · show ((resolveDestination host pidl b).cells.set _ 0)[_]? = some 0
      unfold lstrlenW
      rw [set_after_cstr _ hlt]
      exact (getElem?_after_append _ _ 0 0).2
    · show cstr ((resolveDestination host pidl b).cells.set _ 0) = _
      unfold lstrlenW
      exact cstr_set_succ _ (by omega)

/-- C5, evaluated: for the destination `D` the array passes the check and the
operation's destination has zeros at indices 1 and 2; for a destination whose
path fills the array (259 characters) the call returns `E_FAIL` without a bulk
operation. -/
theorem C5_destination_capacity_witness :
    (∃ op, fileOps (DoRealCopy sampleHost sampleObject (numericVerb 0) (some [68])).log = [op] ∧
        op.pTo[1]? = some 0 ∧ op.pTo[2]? = some 0) ∧
    ((DoRealCopy sampleHost sampleObject (numericVerb 0) (some (List.replicate 259 65))).ret
        = some E_FAIL ∧
      fileOps (DoRealCopy sampleHost sampleObject (numericVerb 0)
        (some (List.replicate 259 65))).log = []) := by
  constructor
  · obtain ⟨_, op, h1, _, h3, h4, _⟩ :=
      (C5_destination_capacity sampleHost sampleObject (numericVerb 0) (some [68]) twoItems [70]
        [70, 92, 97, 124, 70, 92, 98] (Buf.ofStr [70, 92, 98]) rfl rfl rfl rfl rfl).2 (by decide)
    exact ⟨op, h1, h3, h4⟩
  · exact (C5_destination_capacity sampleHost sampleObject (numericVerb 0)
      (some (List.replicate 259 65)) twoItems [70]
      [70, 92, 97, 124, 70, 92, 98] (Buf.ofStr [70, 92, 98]) rfl rfl rfl rfl rfl).1 (by decide)

/-- The layout of the source list on a run whose items all resolve: when the
first identifier is present, every present item resolves to a non-empty path
free of the delimiter, and the run passes the capacity check, the list handed
to the bulk operation is the paths of the present items in selection order,
each followed by a single zero, and one more zero; with every identifier
present these are as many paths as items. -/
theorem DoRealCopy_source_list_layout (host : Host) (self : CCopyToMenu)
    (lpici : CMINVOKECOMMANDINFO) (D : PIDL) (obj : IDataObject) (parent i0 : PIDL)
    (rest : List (Option PIDL)) (P : PIDL → WStr) (s : WStr) (b : Buf)
    (hobj : self.m_pDataObject = some obj) (hhr : FAILED obj.hrGetData = false)
    (halloc : host.CoTaskMemAlloc_ok = true) (hfolder : obj.medium.folder = some parent)
    (hitems : obj.medium.items = some i0 :: rest)
    (hres : ∀ rel, some rel ∈ obj.medium.items → ∀ b2,
      cstr (host.SHGetPathFromIDListW (host.ILCombine parent rel) b2).2.cells = P rel)
    (hne : ∀ rel, some rel ∈ obj.medium.items → P rel ≠ [])
    (hbar : ∀ rel, some rel ∈ obj.medium.items → BAR ∉ P rel)
    (hloop : copyLoop host parent (some D) 0 obj.medium.items [] host.garbage = some (s, b))
    (hcap : lstrlenW (resolveDestination host (some D) b) + 1 < MAX_PATH) :
    ∃ op, fileOps (DoRealCopy host self lpici (some D)).log = [op] ∧
      op.pFrom
        = ((obj.medium.items.reduceOption.map P).map (fun p => p ++ [0])).flatten ++ [0] ∧
      multiSz op.pFrom = obj.medium.items.reduceOption.map P ∧
      op.pFrom.count 0 = (obj.medium.items.reduceOption.map P).length + 1 ∧
      ((∀ it ∈ obj.medium.items, it.isSome) →
        (multiSz op.pFrom).length = obj.medium.cidl) := by
  have hres2 := hres
  have hbar2 := hbar
  rw [hitems] at hres2 hbar2
  obtain ⟨s2, b2, hl2, hs2⟩ := copyLoop_first host parent D P i0 rest hres2 hbar2 host.garbage
  have hloop2 := hloop
  rw [hitems, hl2] at hloop2
  cases hloop2
  have h0 := paths_wellformed host parent _ P hres
  have h1 := paths_nonempty _ P hne
  have hm := multiSz_layout _ h0 h1
  rw [DoRealCopy_reaches host self lpici (some D) obj parent s b hobj hhr halloc hfolder hloop,
    copyTail_fits host lpici (some D) _ b hcap, hs2, ← hitems]
  refine ⟨_, rfl, rfl, hm, ?_, ?_⟩
  · show List.count 0 (_ ++ [0]) = _
    rw [List.count_append, count_zero_layout _ h0]
    simp
  · intro hall
    show (multiSz (_ ++ [0])).length = _
    rw [hm, List.length_map, CIDA.cidl]
    exact List.reduceOption_length_eq_iff.2 (fun x hx => hall x hx)

/-- C3: the source breaks the claim.  Three items `a`, `x`, `b` are selected
under `F`, every identifier is present, the destination is `D`, and
`ILCombine` answers null for `x`.  The test after `ILCombine` reads `pidl`
where `pidlCombine` is meant and the result of `SHGetPathFromIDListW` is not
looked at, so the loop goes on: `DoRealCopy` returns `S_OK` having handed over
the list `F\a`, zero, zero, `F\b`, zero, zero, which has an empty string
before its end and reads as the single path `F\a`; where the failed call
leaves the array untouched the list reads `F\a`, `F\a`, `F\b`.  In both
cases it is not one path per selected item. -/
theorem C3_unresolved_item_breaks_list :
    threeItems.medium.cidl = 3 ∧
    (DoRealCopy noMemoryHost (objectWith threeItems) (numericVerb 0) (some [68])).ret
      = some S_OK ∧
    (fileOps (DoRealCopy noMemoryHost (objectWith threeItems) (numericVerb 0)
        (some [68])).log).map (fun op => op.pFrom)
      = [[70, 92, 97, 0, 0, 70, 92, 98, 0, 0]] ∧
    (fileOps (DoRealCopy noMemoryHost (objectWith threeItems) (numericVerb 0)
        (some [68])).log).map (fun op => multiSz op.pFrom) = [[[70, 92, 97]]] ∧
    (fileOps (DoRealCopy staleHost (objectWith threeItems) (numericVerb 0)
        (some [68])).log).map (fun op => multiSz op.pFrom)
      = [[[70, 92, 97], [70, 92, 97], [70, 92, 98]]] := by
  decide

/-! ## Checked properties of `DoGetFileTitle` -/

/-- C10 as stated fails: with two items selected and the parent identifier
missing, the title is the bare placeholder, without the ellipsis marker. -/
theorem C10_counterexample :
    parentMissing.medium.cidl = 2 ∧
    DoGetFileTitle sampleHost (objectWith parentMissing) = some strFilePlaceholder ∧
    strFilePlaceholder ≠ strFilePlaceholder ++ strEllipsis := by
  decide

/-- C10, amended: when the data is unavailable, or the parent identifier or
the first item identifier is missing, `DoGetFileTitle` returns exactly the
placeholder `(file)`, whatever the number of items; otherwise it returns the
file-name part of the first item's path, or the placeholder when that path
cannot be resolved, followed by the ellipsis marker if and only if more than
one item is selected. -/
theorem C10_file_title (host : Host) (self : CCopyToMenu) (obj : IDataObject)
    (hobj : self.m_pDataObject = some obj) :
    ((FAILED obj.hrGetData = true ∨ host.CoTaskMemAlloc_ok = false ∨
        obj.medium.folder = none ∨ HIDA_GetPIDLItem obj.medium 0 = none) →
      DoGetFileTitle host self = some strFilePlaceholder) ∧
    (∀ parent first, FAILED obj.hrGetData = false → host.CoTaskMemAlloc_ok = true →
      obj.medium.folder = some parent → HIDA_GetPIDLItem obj.medium 0 = some first →
      DoGetFileTitle host self = some
        ((if (host.SHGetPathFromIDListW (host.ILCombine parent first) host.garbage).1 then
            host.PathFindFileNameW
              (cstr (host.SHGetPathFromIDListW (host.ILCombine parent first) host.garbage).2.cells)
          else strFilePlaceholder)
          ++ (if 1 < obj.medium.cidl then strEllipsis else []))) := by
  have hE : FAILED E_FAIL = true := by decide
  have hS : FAILED S_OK = false := by decide
  constructor
  · intro h
    unfold DoGetFileTitle _GetCidlFromDataObject
    rw [hobj]
    by_cases h1 : FAILED obj.hrGetData = true
    · simp [h1]
    · by_cases h2 : host.CoTaskMemAlloc_ok = true
      · rcases h with h | h | h | h
        · exact absurd h h1
        · rw [h2] at h; cases h
        · simp [h1, h2, hS, HIDA_GetPIDLFolder, h]
        · cases hf : obj.medium.folder <;> simp [h1, h2, hS, HIDA_GetPIDLFolder, hf, h]
      · simp [h1, h2, hE]
  · intro parent first h1 h2 h3 h4
    unfold DoGetFileTitle _GetCidlFromDataObject
    rw [hobj]
    simp only [h1, h2, hS, HIDA_GetPIDLFolder, h3, h4, Bool.false_eq_true, if_false, if_true]
    by_cases hc : 1 < obj.medium.cidl <;> simp [hc]

/-- C10, evaluated: for the items `a`, `b` under `F` the title is `a ...`. -/
theorem C10_file_title_witness :
    DoGetFileTitle sampleHost sampleObject = some [97, 32, 46, 46, 46] :=
  ((C10_file_title sampleHost sampleObject twoItems rfl).2 [70] [97] rfl rfl rfl rfl).trans
    (by decide)

/-! ## Checked properties of `DoCopyToFolder` -/

theorem DoRealCopy_log (host : Host) (self : CCopyToMenu) (lpici : CMINVOKECOMMANDINFO)
    (pidl : Option PIDL) :
    (DoRealCopy host self lpici pidl).log = [Event.DoRealCopy pidl] ∨
    ∃ op, (DoRealCopy host self lpici pidl).log
      = [Event.DoRealCopy pidl, Event.SHFileOperation op] := by
  unfold DoRealCopy
  split
  · exact Or.inl rfl
  · split
    · exact Or.inl rfl
    · split
      · exact Or.inl rfl
      · split
        · exact Or.inl rfl
        · split
          · exact Or.inl rfl
          · simp only [copyTail]
            split
            · exact Or.inr ⟨_, rfl⟩
            · exact Or.inl rfl

theorem DoRealCopy_realCopies (host : Host) (self : CCopyToMenu) (lpici : CMINVOKECOMMANDINFO)
    (pidl : Option PIDL) :
    realCopies (DoRealCopy host self lpici pidl).log = [pidl] ∧
    dialogs (DoRealCopy host self lpici pidl).log = [] := by
  rcases DoRealCopy_log host self lpici pidl with h | ⟨op, h⟩ <;> rw [h] <;>
    simp [realCopies, dialogs]

theorem DoCopyToFolder_unresolved (host : Host) (self : CCopyToMenu)
    (lpici : CMINVOKECOMMANDINFO)
    (hsrc : (host.SHGetPathFromIDListW self.m_pidlFolder host.garbage).1 = false) :
    DoCopyToFolder host self lpici = ⟨[Event.DoCopyToFolder], some E_FAIL⟩ := by
  simp [DoCopyToFolder, hsrc]

theorem DoCopyToFolder_fault (host : Host) (self : CCopyToMenu) (lpici : CMINVOKECOMMANDINFO)
    (hsrc : ¬ (host.SHGetPathFromIDListW self.m_pidlFolder host.garbage).1 = false)
    (ht : DoGetFileTitle host self = none) :
    DoCopyToFolder host self lpici = ⟨[Event.DoCopyToFolder], none⟩ := by
  simp [DoCopyToFolder, hsrc, ht]

theorem DoCopyToFolder_cancel (host : Host) (self : CCopyToMenu) (lpici : CMINVOKECOMMANDINFO)
    (t : WStr)
    (hsrc : ¬ (host.SHGetPathFromIDListW self.m_pidlFolder host.garbage).1 = false)
    (ht : DoGetFileTitle host self = some t)
    (hdlg : host.SHBrowseForFolder (browseInfoFor host self lpici t) = none) :
    DoCopyToFolder host self lpici
      = ⟨[Event.DoCopyToFolder, Event.SHBrowseForFolder (browseInfoFor host self lpici t)],
         some E_FAIL⟩ := by
  simp [DoCopyToFolder, hsrc, ht, hdlg]

theorem DoCopyToFolder_chosen (host : Host) (self : CCopyToMenu) (lpici : CMINVOKECOMMANDINFO)
    (t : WStr) (pidl : PIDL)
    (hsrc : ¬ (host.SHGetPathFromIDListW self.m_pidlFolder host.garbage).1 = false)
    (ht : DoGetFileTitle host self = some t)
    (hdlg : host.SHBrowseForFolder (browseInfoFor host self lpici t) = some pidl) :
    DoCopyToFolder host self lpici
      = ⟨Event.DoCopyToFolder :: Event.SHBrowseForFolder (browseInfoFor host self lpici t)
            :: (DoRealCopy host self lpici (some pidl)).log,
         (DoRealCopy host self lpici (some pidl)).ret⟩ := by
  simp [DoCopyToFolder, hsrc, ht, hdlg]

/-- C8: in `DoCopyToFolder`, when the stored source folder cannot be resolved
the call returns `E_FAIL` without opening the dialog, entering `DoRealCopy` or
issuing a bulk operation; when the source resolves and the title is computed
the dialog is opened once; when the dialog is dismissed the call returns
`E_FAIL` without entering `DoRealCopy` or issuing a bulk operation; when it
answers a folder `DoRealCopy` is entered exactly once, with that folder, and
its result is returned; and `DoRealCopy` is entered only in that last case. -/
theorem C8_cancel_or_unresolved_source (host : Host) (self : CCopyToMenu)
    (lpici : CMINVOKECOMMANDINFO) :
    ((host.SHGetPathFromIDListW self.m_pidlFolder host.garbage).1 = false →
      (DoCopyToFolder host self lpici).ret = some E_FAIL ∧
      dialogs (DoCopyToFolder host self lpici).log = [] ∧
      realCopies (DoCopyToFolder host self lpici).log = [] ∧
      fileOps (DoCopyToFolder host self lpici).log = []) ∧
    (∀ title, (host.SHGetPathFromIDListW self.m_pidlFolder host.garbage).1 = true →
      DoGetFileTitle host self = some title →
      dialogs (DoCopyToFolder host self lpici).log = [browseInfoFor host self lpici title]) ∧
    (∀ info, dialogs (DoCopyToFolder host self lpici).log = [info] →
      host.SHBrowseForFolder info = none →
      (DoCopyToFolder host self lpici).ret = some E_FAIL ∧
      realCopies (DoCopyToFolder host self lpici).log = [] ∧
      fileOps (DoCopyToFolder host self lpici).log = []) ∧
    (∀ info pidl, dialogs (DoCopyToFolder host self lpici).log = [info] →
      host.SHBrowseForFolder info = some pidl →
      realCopies (DoCopyToFolder host self lpici).log = [some pidl] ∧
      (DoCopyToFolder host self lpici).ret = (DoRealCopy host self lpici (some pidl)).ret ∧
      fileOps (DoCopyToFolder host self lpici).log
        = fileOps (DoRealCopy host self lpici (some pidl)).log) ∧
    (realCopies (DoCopyToFolder host self lpici).log ≠ [] ↔
      ∃ info pidl, dialogs (DoCopyToFolder host self lpici).log = [info] ∧
        host.SHBrowseForFolder info = some pidl) := by
  by_cases hsrc : (host.SHGetPathFromIDListW self.m_pidlFolder host.garbage).1 = false
  · rw [DoCopyToFolder_unresolved host self lpici hsrc]
    simp [hsrc, dialogs, realCopies, fileOps]
  · cases ht : DoGetFileTitle host self with
    | none =>
        rw [DoCopyToFolder_fault host self lpici hsrc ht]
        simp [hsrc, dialogs, realCopies, fileOps]
    | some t =>
        cases hdlg : host.SHBrowseForFolder (browseInfoFor host self lpici t) with
        | none =>
            have hsrc2 : (host.SHGetPathFromIDListW self.m_pidlFolder host.garbage).1 = true := by
              simpa using hsrc
            rw [DoCopyToFolder_cancel host self lpici t hsrc ht hdlg]
            simp only [dialogs, realCopies, fileOps]
            refine ⟨fun h => absurd h hsrc, ?_, ?_, ?_, ?_⟩
            · intro title _ he
              cases he; rfl
            · intro info _ _
              simp
            · intro info p hi hp
              simp only [List.cons.injEq, and_true] at hi
              rw [← hi, hdlg] at hp
              cases hp
            · constructor
              · intro h
                exact absurd rfl h
              · rintro ⟨info, p, hi, hp⟩
                simp only [List.cons.injEq, and_true] at hi
                rw [← hi, hdlg] at hp
                cases hp
        | some pidl =>
            have h1 := DoRealCopy_realCopies host self lpici (some pidl)
            rw [DoCopyToFolder_chosen host self lpici t pidl hsrc ht hdlg]
            simp only [dialogs, realCopies, fileOps, h1.1, h1.2]
            refine ⟨fun h => absurd h hsrc, ?_, ?_, ?_, ?_⟩
            · intro title _ he
              cases he; rfl
            · intro info hi hn
              simp only [List.cons.injEq, and_true] at hi
              rw [← hi, hdlg] at hn
              cases hn
            · intro info p hi hp
              simp only [List.cons.injEq, and_true] at hi
              rw [← hi, hdlg] at hp
              cases hp
              exact ⟨rfl, rfl, rfl⟩
            · constructor
              · intro _
                exact ⟨_, pidl, rfl, hdlg⟩
              · intro _
                simp

/-- C8, evaluated: with the dialog dismissed the result is `E_FAIL` and
`DoRealCopy` is not entered; with the dialog answering `D` it is entered once
with `D`. -/
theorem C8_cancel_or_unresolved_source_witness :
    ((DoCopyToFolder cancelHost sampleObject (numericVerb 0)).ret = some E_FAIL ∧
      realCopies (DoCopyToFolder cancelHost sampleObject (numericVerb 0)).log = [] ∧
      fileOps (DoCopyToFolder cancelHost sampleObject (numericVerb 0)).log = []) ∧
    realCopies (DoCopyToFolder sampleHost sampleObject (numericVerb 0)).log = [some [68]] :=
  ⟨(C8_cancel_or_unresolved_source cancelHost sampleObject (numericVerb 0)).2.2.1
      (browseInfoFor cancelHost sampleObject (numericVerb 0) [97, 32, 46, 46, 46]) (by decide) rfl,
    by decide⟩

/-! ## Checked properties of the browse callback -/

/-- C6: on a selection-change notification for the node `p`, in a dialog
whose user data addresses the object, `BrowseCallbackProc` posts exactly one
message, `WM_ENABLEOK`, and sends none; its flag is 1 if and only if `p` is
not equal to the original source folder and (the path `p` resolves to exists
or `p` is the desktop node), and 0 otherwise; `WindowProc` later applies that
flag through `BFFM_ENABLEOK`. -/
theorem C6_ok_button_policy (host : Host) (win : Window) (this_ : CCopyToMenu)
    (p : Option PIDL) (lpData : CCopyToMenu) (hwin : win.userData = some this_) :
    ∃ r flag, BrowseCallbackProc host win BFFM_SELCHANGED p lpData = some r ∧
      r.log = [Event.PostMessageW WM_ENABLEOK 0 flag] ∧
      posted r.log = [(WM_ENABLEOK, 0, flag)] ∧ sentNow r.log = [] ∧
      (flag = 1 ∨ flag = 0) ∧
      (flag = 1 ↔
        host.ILIsEqual p this_.m_pidlFolder = false ∧
        (host.PathFileExistsW
            (cstr (host.SHGetPathFromIDListW p (host.garbage.write 0 0)).2.cells) = true ∨
          host._ILIsDesktop p = true)) ∧
      WindowProc host r.win WM_ENABLEOK 0 flag
        = some ⟨r.win, [Event.SendMessageW_int BFFM_ENABLEOK 0 flag], 0⟩ := by
  have hne : ¬ BFFM_SELCHANGED = BFFM_INITIALIZED := by decide
  unfold BrowseCallbackProc
  simp only [hne, if_false, if_true, hwin]
  by_cases h1 : host.ILIsEqual p this_.m_pidlFolder = true
  · refine ⟨⟨win, [Event.PostMessageW WM_ENABLEOK 0 0], 0⟩, 0, by rw [if_pos h1], rfl, rfl, rfl,
      Or.inr rfl, ?_, by simp [WindowProc, widenBOOL]⟩
    simp [h1]
  · by_cases h2 : (host.PathFileExistsW
        (cstr (host.SHGetPathFromIDListW p (host.garbage.write 0 0)).2.cells)
        || host._ILIsDesktop p) = true
    · refine ⟨⟨win, [Event.PostMessageW WM_ENABLEOK 0 1], 0⟩, 1, by rw [if_neg h1, if_pos h2],
        rfl, rfl, rfl, Or.inl rfl, ?_, by simp [WindowProc, widenBOOL]⟩
      simp only [Bool.or_eq_true] at h2
      simp [h1, h2]
    · refine ⟨⟨win, [Event.PostMessageW WM_ENABLEOK 0 0], 0⟩, 0, by rw [if_neg h1, if_neg h2],
        rfl, rfl, rfl, Or.inr rfl, ?_, by simp [WindowProc, widenBOOL]⟩
      simp only [Bool.or_eq_true] at h2
      simp [h1, h2]

/-- C6, evaluated in the initialised dialog of the sample object (source
folder `F`): selecting `F` posts the flag 0, selecting the existing folder `D`
posts 1, selecting the desktop node posts 1, and selecting a node without a
path posts 0. -/
theorem C6_ok_button_policy_witness :
    (BrowseCallbackProc sampleHost freshWindow BFFM_INITIALIZED none sampleObject).map
        (fun r => r.win) = some sampleWindow ∧
    (BrowseCallbackProc sampleHost sampleWindow BFFM_SELCHANGED (some [70]) sampleObject).map
        (fun r => posted r.log) = some [(WM_ENABLEOK, 0, 0)] ∧
    (BrowseCallbackProc sampleHost sampleWindow BFFM_SELCHANGED (some [68]) sampleObject).map
        (fun r => posted r.log) = some [(WM_ENABLEOK, 0, 1)] ∧
    (BrowseCallbackProc sampleHost sampleWindow BFFM_SELCHANGED (some []) sampleObject).map
        (fun r => posted r.log) = some [(WM_ENABLEOK, 0, 1)] ∧
    (BrowseCallbackProc sampleHost sampleWindow BFFM_SELCHANGED (some [0]) sampleObject).map
        (fun r => posted r.log) = some [(WM_ENABLEOK, 0, 0)] := by
  refine ⟨by decide, ?_, by decide, by decide, by decide⟩
  obtain ⟨r, flag, h1, _, h3, _, _, h6, _⟩ :=
    C6_ok_button_policy sampleHost sampleWindow { sampleObject with m_fnOldWndProc := 9 }
      (some [70]) sampleObject rfl
  have hf : flag = 0 := by
    by_contra hne
    have h1f : flag = 1 := by
      rcases (by assumption : flag = 1 ∨ flag = 0) with h | h
      · exact h
      · exact absurd h hne
    have := (h6.1 h1f).1
    revert this
    decide
  rw [h1, Option.map_some', h3, hf]

/-! ## Checked properties of `InvokeCommand` -/

theorem lstrcmpiA_eq_zero (a b : List Nat) : lstrcmpiA a b = 0 ↔ equalsIgnoreCase a b := by
  unfold equalsIgnoreCase
  induction a generalizing b with
  | nil => cases b <;> simp [lstrcmpiA]
  | cons x xs ih =>
      cases b with
      | nil => simp [lstrcmpiA]
      | cons y ys =>
          simp only [lstrcmpiA, List.map_cons, List.cons.injEq]
          by_cases h1 : foldCase x < foldCase y
          · simp only [h1, if_true]
            constructor
            · intro h; cases h
            · intro h; omega
          · by_cases h2 : foldCase y < foldCase x
            · simp only [h1, h2, if_true, if_false]
              constructor
              · intro h; cases h
              · intro h; omega
            · simp only [h1, h2, if_false, ih ys]
              constructor
              · intro h; exact ⟨by omega, h⟩
              · intro h; exact h.2

theorem DoCopyToFolder_started (host : Host) (self : CCopyToMenu)
    (lpici : CMINVOKECOMMANDINFO) : (DoCopyToFolder host self lpici).started := by
  unfold Run.started
  by_cases hsrc : (host.SHGetPathFromIDListW self.m_pidlFolder host.garbage).1 = false
  · rw [DoCopyToFolder_unresolved host self lpici hsrc]; simp
  · cases ht : DoGetFileTitle host self with
    | none => rw [DoCopyToFolder_fault host self lpici hsrc ht]; simp
    | some t =>
        cases hdlg : host.SHBrowseForFolder (browseInfoFor host self lpici t) with
        | none => rw [DoCopyToFolder_cancel host self lpici t hsrc ht hdlg]; simp
        | some pidl => rw [DoCopyToFolder_chosen host self lpici t pidl hsrc ht hdlg]; simp

/-- C2: for every `InvokeCommand` call in textual form (the high word of
`lpVerb` is not zero), whatever the state of the object, the copy-to-folder
workflow is started if and only if the verb equals `copyto` under
case-insensitive comparison, and then the call is `DoCopyToFolder`; for every
other string the call returns `E_FAIL` with no effect. -/
theorem C2_textual_verb (host : Host) (self : CCopyToMenu) (lpici : CMINVOKECOMMANDINFO)
    (htext : HIWORD lpici.lpVerb ≠ 0) :
    ((InvokeCommand host self lpici).started ↔ equalsIgnoreCase lpici.verbText strCopyToVerb) ∧
    (equalsIgnoreCase lpici.verbText strCopyToVerb →
      InvokeCommand host self lpici = DoCopyToFolder host self lpici) ∧
    (¬ equalsIgnoreCase lpici.verbText strCopyToVerb →
      InvokeCommand host self lpici = ⟨[], some E_FAIL⟩) := by
  unfold InvokeCommand
  rw [if_neg htext]
  by_cases h : lstrcmpiA lpici.verbText strCopyToVerb = 0
  · have he := (lstrcmpiA_eq_zero _ _).1 h
    rw [if_pos h]
    exact ⟨⟨fun _ => he, fun _ => DoCopyToFolder_started host self lpici⟩, fun _ => rfl,
      fun hn => absurd he hn⟩
  · have he : ¬ equalsIgnoreCase lpici.verbText strCopyToVerb :=
      fun e => h ((lstrcmpiA_eq_zero _ _).2 e)
    rw [if_neg h]
    refine ⟨⟨fun hs => ?_, fun e => absurd e he⟩, fun e => absurd e he, fun _ => rfl⟩
    simp [Run.started] at hs

/-- C2, evaluated: the verb `CopyTo` given as a string starts the workflow on a
fresh object; the verb `copy` returns `E_FAIL` with no effect. -/
theorem C2_textual_verb_witness :
    (InvokeCommand sampleHost CCopyToMenu.new ⟨0, 65536, [67, 111, 112, 121, 84, 111]⟩).started ∧
    InvokeCommand sampleHost sampleObject ⟨0, 65536, [99, 111, 112, 121]⟩
      = ⟨[], some E_FAIL⟩ :=
  ⟨(C2_textual_verb sampleHost CCopyToMenu.new ⟨0, 65536, [67, 111, 112, 121, 84, 111]⟩
      (by decide)).1.2 (by unfold equalsIgnoreCase; decide),
   (C2_textual_verb sampleHost sampleObject ⟨0, 65536, [99, 111, 112, 121]⟩
      (by decide)).2.2 (by unfold equalsIgnoreCase; decide)⟩

/-! ## Lemmas on `QueryContextMenu` -/

theorem InsertMenuItemW_fail (hMenu : HMENU) (pos : Nat) (mii : MENUITEMINFOW)
    (h : hMenu.outcomes.head? = some false) :
    InsertMenuItemW hMenu pos mii = (false, { hMenu with outcomes := hMenu.outcomes.tail }) := by
  unfold InsertMenuItemW
  cases ho : hMenu.outcomes with
  | nil => rw [ho] at h; simp at h
  | cons b t =>
      rw [ho] at h
      simp only [List.head?_cons, Option.some.injEq] at h
      subst h
      rfl

theorem InsertMenuItemW_ok (hMenu : HMENU) (pos : Nat) (mii : MENUITEMINFOW)
    (h : hMenu.outcomes.head? ≠ some false) :
    InsertMenuItemW hMenu pos mii
      = (true, { items := hMenu.items.take pos ++ mii :: hMenu.items.drop pos
                 outcomes := hMenu.outcomes.tail }) := by
  unfold InsertMenuItemW
  cases ho : hMenu.outcomes with
  | nil => rfl
  | cons b t =>
      rw [ho] at h
      cases b with
      | false => simp at h
      | true => rfl

theorem InsertMenuItemW_cases (hMenu : HMENU) (pos : Nat) (mii : MENUITEMINFOW) :
    (hMenu.outcomes.head? = some false ∧
      InsertMenuItemW hMenu pos mii = (false, { hMenu with outcomes := hMenu.outcomes.tail })) ∨
    (hMenu.outcomes.head? ≠ some false ∧
      InsertMenuItemW hMenu pos mii
        = (true, { items := hMenu.items.take pos ++ mii :: hMenu.items.drop pos
                   outcomes := hMenu.outcomes.tail })) := by
  by_cases h : hMenu.outcomes.head? = some false
  · exact Or.inl ⟨h, InsertMenuItemW_fail hMenu pos mii h⟩
  · exact Or.inr ⟨h, InsertMenuItemW_ok hMenu pos mii h⟩

theorem precedingItem_eq (hMenu : HMENU) (indexMenu : Nat) (hidx : indexMenu < 2 ^ 32)
    (hlen : hMenu.items.length < 2 ^ 32) :
    GetMenuItemInfoW hMenu (u32 (indexMenu + (2 ^ 32 - 1))) = precedingItem hMenu indexMenu := by
  unfold GetMenuItemInfoW precedingItem u32
  have h2 : (2 : Nat) ^ 32 = 4294967296 := by norm_num
  rw [h2] at hidx hlen
  by_cases h0 : indexMenu = 0
  · subst h0
    rw [if_pos rfl, List.get?_eq_none]
    have : (0 + (2 ^ 32 - 1)) % 2 ^ 32 = 4294967295 := by norm_num
    rw [this]
    omega
  · rw [if_neg h0]
    have : (indexMenu + (2 ^ 32 - 1)) % 2 ^ 32 = indexMenu - 1 := by
      rw [h2]
      omega
    rw [this]

/-- The three outcomes of the separator block. -/
theorem insertSeparator_cases (hMenu : HMENU) (indexMenu : Nat) :
    ((∃ mii, GetMenuItemInfoW hMenu (u32 (indexMenu + (2 ^ 32 - 1))) = some mii ∧
        mii.fType ≠ MFT_SEPARATOR) ∧ hMenu.outcomes.head? ≠ some false ∧
      insertSeparatorIfNecessary hMenu indexMenu
        = ({ items := hMenu.items.take indexMenu ++ separatorItem :: hMenu.items.drop indexMenu
             outcomes := hMenu.outcomes.tail },
           u32 (indexMenu + 1), 1, [Event.InsertMenuItemW indexMenu separatorItem true])) ∨
    ((∃ mii, GetMenuItemInfoW hMenu (u32 (indexMenu + (2 ^ 32 - 1))) = some mii ∧
        mii.fType ≠ MFT_SEPARATOR) ∧ hMenu.outcomes.head? = some false ∧
      insertSeparatorIfNecessary hMenu indexMenu
        = ({ hMenu with outcomes := hMenu.outcomes.tail }, indexMenu, 0,
           [Event.InsertMenuItemW indexMenu separatorItem false])) ∨
    ((¬ ∃ mii, GetMenuItemInfoW hMenu (u32 (indexMenu + (2 ^ 32 - 1))) = some mii ∧
        mii.fType ≠ MFT_SEPARATOR) ∧
      insertSeparatorIfNecessary hMenu indexMenu = (hMenu, indexMenu, 0, [])) := by
  unfold insertSeparatorIfNecessary
  cases hg : GetMenuItemInfoW hMenu (u32 (indexMenu + (2 ^ 32 - 1))) with
  | none => exact Or.inr (Or.inr ⟨by simp, rfl⟩)
  | some mii =>
      by_cases ht : mii.fType ≠ MFT_SEPARATOR
      · rcases InsertMenuItemW_cases hMenu indexMenu separatorItem with ⟨h1, h2⟩ | ⟨h1, h2⟩
        · refine Or.inr (Or.inl ⟨⟨mii, rfl, ht⟩, h1, ?_⟩)
          simp only [h2]
          rw [if_pos ht]
        · refine Or.inl ⟨⟨mii, rfl, ht⟩, h1, ?_⟩
          simp only [h2]
          rw [if_pos ht]
      · refine Or.inr (Or.inr ⟨?_, ?_⟩)
        · rintro ⟨m, hm, hm2⟩
          cases hm
          exact ht hm2
        · simp only []
          rw [if_neg ht]

theorem insertedEntryId_separator (hMenu : HMENU) (indexMenu : Nat) (rest : List Event) :
    insertedEntryId ((insertSeparatorIfNecessary hMenu indexMenu).2.2.2 ++ rest)
      = insertedEntryId rest := by
  have hs : ¬ separatorItem.fType = MFT_STRING := by decide
  rcases insertSeparator_cases hMenu indexMenu with ⟨_, _, h⟩ | ⟨_, _, h⟩ | ⟨_, h⟩ <;>
    rw [h] <;> simp [insertedEntryId, hs]

theorem separatorEvent_iff (hMenu : HMENU) (indexMenu : Nat) (pos : Nat) (mii : MENUITEMINFOW)
    (ok : Bool) (hm : mii.fType = MFT_STRING) (q : Nat) :
    Event.InsertMenuItemW q separatorItem true
        ∈ (insertSeparatorIfNecessary hMenu indexMenu).2.2.2 ++ [Event.InsertMenuItemW pos mii ok]
      ↔ Event.InsertMenuItemW q separatorItem true
        ∈ (insertSeparatorIfNecessary hMenu indexMenu).2.2.2 := by
  have hne : separatorItem ≠ mii := by
    intro e
    have : separatorItem.fType = MFT_STRING := by rw [e]; exact hm
    revert this
    decide
  simp [hne]

theorem QueryContextMenu_entry_ok (host : Host) (self : CCopyToMenu) (hMenu : HMENU)
    (indexMenu idCmdFirst idCmdLast uFlags : Nat)
    (h : (insertSeparatorIfNecessary hMenu indexMenu).1.outcomes.head? ≠ some false) :
    QueryContextMenu host self hMenu indexMenu idCmdFirst idCmdLast uFlags
      = { self :=
            { self with
              m_idCmdFirst := idCmdFirst
              m_idCmdCopyTo := idCmdFirst
              m_idCmdLast := u32 (idCmdFirst + 1) }
          hMenu :=
            { items :=
                (insertSeparatorIfNecessary hMenu indexMenu).1.items.take
                    (insertSeparatorIfNecessary hMenu indexMenu).2.1
                  ++ copyToItem host idCmdFirst
                    :: (insertSeparatorIfNecessary hMenu indexMenu).1.items.drop
                        (insertSeparatorIfNecessary hMenu indexMenu).2.1
              outcomes := (insertSeparatorIfNecessary hMenu indexMenu).1.outcomes.tail }
          log := (insertSeparatorIfNecessary hMenu indexMenu).2.2.2
            ++ [Event.InsertMenuItemW (insertSeparatorIfNecessary hMenu indexMenu).2.1
                  (copyToItem host idCmdFirst) true]
          hr := MAKE_HRESULT 0 0 ((insertSeparatorIfNecessary hMenu indexMenu).2.2.1 + 1) } := by
  unfold QueryContextMenu
  simp only []
  rw [InsertMenuItemW_ok _ _ _ h]

theorem QueryContextMenu_entry_fail (host : Host) (self : CCopyToMenu) (hMenu : HMENU)
    (indexMenu idCmdFirst idCmdLast uFlags : Nat)
    (h : (insertSeparatorIfNecessary hMenu indexMenu).1.outcomes.head? = some false) :
    QueryContextMenu host self hMenu indexMenu idCmdFirst idCmdLast uFlags
      = { self := { self with m_idCmdFirst := idCmdFirst, m_idCmdLast := idCmdFirst }
          hMenu :=
            { (insertSeparatorIfNecessary hMenu indexMenu).1 with
              outcomes := (insertSeparatorIfNecessary hMenu indexMenu).1.outcomes.tail }
          log := (insertSeparatorIfNecessary hMenu indexMenu).2.2.2
            ++ [Event.InsertMenuItemW (insertSeparatorIfNecessary hMenu indexMenu).2.1
                  (copyToItem host idCmdFirst) false]
          hr := MAKE_HRESULT 0 0 (insertSeparatorIfNecessary hMenu indexMenu).2.2.1 } := by
  unfold QueryContextMenu
  simp only []
  rw [InsertMenuItemW_fail _ _ _ h]

/-- What a population does to the object: `m_idCmdFirst` becomes `idCmdFirst`;
either the entry went into the menu under the id `idCmdFirst` and that id is
stored, or nothing went in and the stored id is untouched. -/
theorem QueryContextMenu_state (host : Host) (self : CCopyToMenu) (hMenu : HMENU)
    (indexMenu idCmdFirst idCmdLast uFlags : Nat) :
    (QueryContextMenu host self hMenu indexMenu idCmdFirst idCmdLast uFlags).self.m_idCmdFirst
        = idCmdFirst ∧
    ((insertedEntryId
          (QueryContextMenu host self hMenu indexMenu idCmdFirst idCmdLast uFlags).log
          = some idCmdFirst ∧
        (QueryContextMenu host self hMenu indexMenu idCmdFirst idCmdLast uFlags).self.m_idCmdCopyTo
          = idCmdFirst ∧
        copyToItem host idCmdFirst
          ∈ (QueryContextMenu host self hMenu indexMenu idCmdFirst idCmdLast uFlags).hMenu.items) ∨
      (insertedEntryId
          (QueryContextMenu host self hMenu indexMenu idCmdFirst idCmdLast uFlags).log = none ∧
        (QueryContextMenu host self hMenu indexMenu idCmdFirst idCmdLast uFlags).self.m_idCmdCopyTo
          = self.m_idCmdCopyTo)) := by
  have hs : (copyToItem host idCmdFirst).fType = MFT_STRING := rfl
  by_cases h : (insertSeparatorIfNecessary hMenu indexMenu).1.outcomes.head? = some false
  · rw [QueryContextMenu_entry_fail host self hMenu indexMenu idCmdFirst idCmdLast uFlags h]
    refine ⟨rfl, Or.inr ⟨?_, rfl⟩⟩
    rw [insertedEntryId_separator]
    simp [insertedEntryId]
  · rw [QueryContextMenu_entry_ok host self hMenu indexMenu idCmdFirst idCmdLast uFlags h]
    refine ⟨rfl, Or.inl ⟨?_, rfl, ?_⟩⟩
    · rw [insertedEntryId_separator]
      simp [insertedEntryId, hs, copyToItem]
    · simp

/-- The numeric test of `InvokeCommand`. -/
theorem InvokeCommand_numeric (host : Host) (self : CCopyToMenu) (lpici : CMINVOKECOMMANDINFO)
    (hnum : HIWORD lpici.lpVerb = 0) :
    ((InvokeCommand host self lpici).started ↔
      u32 (self.m_idCmdFirst + LOWORD lpici.lpVerb) = self.m_idCmdCopyTo) ∧
    (¬ (InvokeCommand host self lpici).started →
      InvokeCommand host self lpici = ⟨[], some E_FAIL⟩) := by
  unfold InvokeCommand
  rw [if_pos hnum]
  by_cases h : u32 (self.m_idCmdFirst + LOWORD lpici.lpVerb) = self.m_idCmdCopyTo
  · rw [if_pos h]
    exact ⟨⟨fun _ => h, fun _ => DoCopyToFolder_started host self lpici⟩,
      fun hn => absurd (DoCopyToFolder_started host self lpici) hn⟩
  · rw [if_neg h]
    exact ⟨⟨fun hs => by simp [Run.started] at hs, fun e => absurd e h⟩, fun _ => rfl⟩

/-! ## Checked properties of menu population and numeric invocation -/

/-- C9: whenever `QueryContextMenu` puts the entry into the menu for a caller
range `[idCmdFirst, idCmdLast]` (`idCmdFirst <= idCmdLast`), the id given to
the entry is `idCmdFirst`, this id lies within the range, and exactly this id
is stored for later recognition, so that a numeric invocation starts the
workflow for the offset 0 and for no other offset; and when the insertion of
the entry fails the stored id is unchanged. -/
theorem C9_entry_id (host : Host) (self : CCopyToMenu) (hMenu : HMENU)
    (indexMenu idCmdFirst idCmdLast uFlags : Nat)
    (hfirst : idCmdFirst < 2 ^ 32) (hrange : idCmdFirst ≤ idCmdLast) :
    (∀ id,
      insertedEntryId
        (QueryContextMenu host self hMenu indexMenu idCmdFirst idCmdLast uFlags).log = some id →
      id = idCmdFirst ∧ idCmdFirst ≤ id ∧ id ≤ idCmdLast ∧
      copyToItem host id
        ∈ (QueryContextMenu host self hMenu indexMenu idCmdFirst idCmdLast uFlags).hMenu.items ∧
      (QueryContextMenu host self hMenu indexMenu idCmdFirst idCmdLast uFlags).self.m_idCmdCopyTo
        = id ∧
      ∀ lpici : CMINVOKECOMMANDINFO, HIWORD lpici.lpVerb = 0 →
        ((InvokeCommand host
            (QueryContextMenu host self hMenu indexMenu idCmdFirst idCmdLast uFlags).self
            lpici).started ↔ LOWORD lpici.lpVerb = 0)) ∧
    (insertedEntryId
        (QueryContextMenu host self hMenu indexMenu idCmdFirst idCmdLast uFlags).log = none →
      (QueryContextMenu host self hMenu indexMenu idCmdFirst idCmdLast uFlags).self.m_idCmdCopyTo
        = self.m_idCmdCopyTo) := by
  obtain ⟨h1, h2⟩ := QueryContextMenu_state host self hMenu indexMenu idCmdFirst idCmdLast uFlags
  have h32 : (2 : Nat) ^ 32 = 4294967296 := by norm_num
  have h16 : (2 : Nat) ^ 16 = 65536 := by norm_num
  rcases h2 with ⟨ha, hb, hc⟩ | ⟨ha, hb⟩
  · constructor
    · intro id hid
      rw [ha] at hid
      cases hid
      refine ⟨rfl, le_refl _, hrange, hc, hb, ?_⟩
      intro lpici hnum
      rw [(InvokeCommand_numeric host _ lpici hnum).1, h1, hb]
      unfold u32 LOWORD
      rw [h32] at hfirst ⊢
      rw [h16]
      omega
    · intro hn
      rw [ha] at hn
      cases hn
  · constructor
    · intro id hid
      rw [ha] at hid
      cases hid
    · intro _
      exact hb

/-- C9, evaluated: populating the one-item menu with the range `[5, 9]` puts
the entry in under the id 5, stores 5, and the offset 0 then starts the
workflow while the offset 1 does not. -/
theorem C9_entry_id_witness :
    insertedEntryId (QueryContextMenu sampleHost sampleObject oneItemMenu 1 5 9 0).log = some 5 ∧
    (QueryContextMenu sampleHost sampleObject oneItemMenu 1 5 9 0).self.m_idCmdCopyTo = 5 ∧
    (InvokeCommand sampleHost (QueryContextMenu sampleHost sampleObject oneItemMenu 1 5 9 0).self
      (numericVerb 0)).started ∧
    ¬ (InvokeCommand sampleHost (QueryContextMenu sampleHost sampleObject oneItemMenu 1 5 9 0).self
      (numericVerb 1)).started := by
  have h := (C9_entry_id sampleHost sampleObject oneItemMenu 1 5 9 0 (by norm_num)
    (by norm_num)).1 5 (by decide)
  exact ⟨by decide, h.2.2.2.2.1, (h.2.2.2.2.2 (numericVerb 0) (by decide)).2 (by decide),
    fun hs => absurd ((h.2.2.2.2.2 (numericVerb 1) (by decide)).1 hs) (by decide)⟩

theorem lastIdCmdFirst_lt (calls : List QueryArgs) (d : Nat) (hd : d < 2 ^ 32)
    (hall : ∀ a ∈ calls, a.idCmdFirst < 2 ^ 32) : lastIdCmdFirst d calls < 2 ^ 32 := by
  induction calls generalizing d with
  | nil => exact hd
  | cons a rest ih =>
      exact ih a.idCmdFirst (hall a (by simp)) (fun x hx => hall x (by simp [hx]))

/-- The members of the object after a sequence of populations, against the
history of the menus. -/
theorem runQueries_invariant (host : Host) (calls : List QueryArgs) (self : CCopyToMenu)
    (cur : Option Nat) (hcur : self.m_idCmdCopyTo = cur.getD (2 ^ 32 - 1))
    (hb : ∀ id, cur = some id → id < 2 ^ 32)
    (hall : ∀ a ∈ calls, a.idCmdFirst < 2 ^ 32) :
    (runQueries host self calls).m_idCmdFirst = lastIdCmdFirst self.m_idCmdFirst calls ∧
    (runQueries host self calls).m_idCmdCopyTo
      = (recordedId host self cur calls).getD (2 ^ 32 - 1) ∧
    (∀ id, recordedId host self cur calls = some id → id < 2 ^ 32) := by
  induction calls generalizing self cur with
  | nil => exact ⟨rfl, hcur, hb⟩
  | cons a rest ih =>
      have ha : a.idCmdFirst < 2 ^ 32 := hall a (by simp)
      have hrest : ∀ x ∈ rest, x.idCmdFirst < 2 ^ 32 := fun x hx => hall x (by simp [hx])
      obtain ⟨h1, h2⟩ :=
        QueryContextMenu_state host self a.hMenu a.indexMenu a.idCmdFirst a.idCmdLast a.uFlags
      simp only [runQueries, recordedId, lastIdCmdFirst]
      rcases h2 with ⟨hi, hc, _⟩ | ⟨hi, hc⟩
      · rw [hi]
        have := ih
          (QueryContextMenu host self a.hMenu a.indexMenu a.idCmdFirst a.idCmdLast a.uFlags).self
          (some a.idCmdFirst) (by rw [hc]; rfl)
          (fun id hid => by cases hid; exact ha) hrest
        rw [h1] at this
        exact this
      · rw [hi]
        have := ih
          (QueryContextMenu host self a.hMenu a.indexMenu a.idCmdFirst a.idCmdLast a.uFlags).self
          cur (by rw [hc]; exact hcur) hb hrest
        rw [h1] at this
        exact this

/-- C1 as stated fails: after one population with `idCmdFirst = 0xFFFFFFFF`
whose insertion the menu refuses, no id has been recorded, and yet the numeric
offset 0 starts the workflow, which runs to a successful copy. -/
theorem C1_counterexample :
    recordedId sampleHost sampleObject none refusedQuery = none ∧
    (InvokeCommand sampleHost (runQueries sampleHost sampleObject refusedQuery)
      (numericVerb 0)).started ∧
    (InvokeCommand sampleHost (runQueries sampleHost sampleObject refusedQuery)
      (numericVerb 0)).ret = some S_OK := by
  decide

/-- C1, amended: for the object after construction, `Initialize` and any
sequence of `QueryContextMenu` calls, `InvokeCommand` with a numeric verb of
offset `k` starts the workflow exactly when `idCmdFirst + k`, in 32-bit
unsigned arithmetic, equals the stored id: when an id has been recorded, if
and only if `k` equals that id minus the `idCmdFirst` of the most recent
population; when none has been recorded, if and only if `idCmdFirst + k` hits
the stored value `0xFFFFFFFF`, which no offset does while
`idCmdFirst < 0xFFFF0000`.  In every other case the call returns `E_FAIL`
with no effect. -/
theorem C1_numeric_dispatch (host : Host) (pidlFolder : Option PIDL)
    (pdtobj : Option IDataObject) (calls : List QueryArgs) (lpici : CMINVOKECOMMANDINFO)
    (hall : ∀ a ∈ calls, a.idCmdFirst < 2 ^ 32) (hnum : HIWORD lpici.lpVerb = 0) :
    (∀ id, recordedId host (Initialize host CCopyToMenu.new pidlFolder pdtobj).1 none calls = some id →
      ((InvokeCommand host
          (runQueries host (Initialize host CCopyToMenu.new pidlFolder pdtobj).1 calls) lpici).started
        ↔ LOWORD lpici.lpVerb = u32 (id + (2 ^ 32 - lastIdCmdFirst 0 calls)))) ∧
    (recordedId host (Initialize host CCopyToMenu.new pidlFolder pdtobj).1 none calls = none →
      ((InvokeCommand host
          (runQueries host (Initialize host CCopyToMenu.new pidlFolder pdtobj).1 calls) lpici).started
        ↔ lastIdCmdFirst 0 calls + LOWORD lpici.lpVerb = 2 ^ 32 - 1)) ∧
    (recordedId host (Initialize host CCopyToMenu.new pidlFolder pdtobj).1 none calls = none →
      lastIdCmdFirst 0 calls < 2 ^ 32 - 2 ^ 16 →
      ¬ (InvokeCommand host
          (runQueries host (Initialize host CCopyToMenu.new pidlFolder pdtobj).1 calls)
          lpici).started) ∧
    (¬ (InvokeCommand host
          (runQueries host (Initialize host CCopyToMenu.new pidlFolder pdtobj).1 calls) lpici).started →
      InvokeCommand host
          (runQueries host (Initialize host CCopyToMenu.new pidlFolder pdtobj).1 calls) lpici
        = ⟨[], some E_FAIL⟩) := by
  obtain ⟨h1, h2, h3⟩ := runQueries_invariant host calls
    (Initialize host CCopyToMenu.new pidlFolder pdtobj).1 none rfl
    (fun id hid => by cases hid) hall
  have hlast := lastIdCmdFirst_lt calls 0 (by norm_num) hall
  have hfirst0 : (Initialize host CCopyToMenu.new pidlFolder pdtobj).1.m_idCmdFirst = 0 := rfl
  rw [hfirst0] at h1
  obtain ⟨hn1, hn2⟩ := InvokeCommand_numeric host
    (runQueries host (Initialize host CCopyToMenu.new pidlFolder pdtobj).1 calls) lpici hnum
  have h32 : (2 : Nat) ^ 32 = 4294967296 := by norm_num
  have h16 : (2 : Nat) ^ 16 = 65536 := by norm_num
  have hk : LOWORD lpici.lpVerb < 65536 := by
    unfold LOWORD; rw [h16]; exact Nat.mod_lt _ (by norm_num)
  rw [h32] at hlast
  refine ⟨?_, ?_, ?_, hn2⟩
  · intro id hid
    have hidlt := h3 id hid
    rw [hn1, h1, h2, hid]
    simp only [Option.getD_some]
    unfold u32
    rw [h32] at hidlt ⊢
    omega
  · intro hnone
    rw [hn1, h1, h2, hnone]
    simp only [Option.getD_none]
    unfold u32
    rw [h32]
    omega
  · intro hnone hsmall
    rw [hn1, h1, h2, hnone]
    simp only [Option.getD_none]
    unfold u32
    rw [h32, h16] at *
    omega

/-- C1, evaluated: after a population of the one-item menu with
`idCmdFirst = 5` the offset 0 starts the workflow and the offset 3 does not. -/
theorem C1_numeric_dispatch_witness :
    (InvokeCommand sampleHost
      (runQueries sampleHost (Initialize sampleHost CCopyToMenu.new (some [70]) (some twoItems)).1
        [⟨oneItemMenu, 1, 5, 9, 0⟩]) (numericVerb 0)).started ∧
    ¬ (InvokeCommand sampleHost
      (runQueries sampleHost (Initialize sampleHost CCopyToMenu.new (some [70]) (some twoItems)).1
        [⟨oneItemMenu, 1, 5, 9, 0⟩]) (numericVerb 3)).started := by
  have hall : ∀ a ∈ [(⟨oneItemMenu, 1, 5, 9, 0⟩ : QueryArgs)], a.idCmdFirst < 2 ^ 32 := by
    intro a ha
    simp only [List.mem_singleton] at ha
    subst ha
    norm_num
  exact ⟨((C1_numeric_dispatch sampleHost (some [70]) (some twoItems) [⟨oneItemMenu, 1, 5, 9, 0⟩]
      (numericVerb 0) hall (by decide)).1 5 (by decide)).2 (by decide),
    fun hs => absurd (((C1_numeric_dispatch sampleHost (some [70]) (some twoItems)
      [⟨oneItemMenu, 1, 5, 9, 0⟩] (numericVerb 3) hall (by decide)).1 5 (by decide)).1 hs)
      (by decide)⟩

theorem separatorCount_insert (items : List MENUITEMINFOW) (pos : Nat) (mii : MENUITEMINFOW)
    (o o2 : List Bool) :
    separatorCount { items := items.take pos ++ mii :: items.drop pos, outcomes := o }
      = separatorCount { items := items, outcomes := o2 }
        + (if isSeparator mii = true then 1 else 0) := by
  unfold separatorCount
  simp only [List.filter_append, List.length_append, List.filter_cons]
  have h : (items.filter isSeparator).length
      = ((items.take pos).filter isSeparator).length
        + ((items.drop pos).filter isSeparator).length := by
    rw [← List.length_append, ← List.filter_append, List.take_append_drop]
  rw [h]
  by_cases hm : isSeparator mii = true
  · simp [hm]; omega
  · simp [hm]

theorem isSeparator_of_plain (mii : MENUITEMINFOW)
    (hplain : mii.fType = MFT_SEPARATOR ∨ isSeparator mii = false) :
    mii.fType ≠ MFT_SEPARATOR ↔ isSeparator mii = false := by
  constructor
  · intro h
    rcases hplain with h2 | h2
    · exact absurd h2 h
    · exact h2
  · intro h he
    unfold isSeparator at h
    rw [he] at h
    revert h
    decide

theorem getElem?_inserted (l : List MENUITEMINFOW) (n : Nat) (x : MENUITEMINFOW)
    (h : n ≤ l.length) : (l.take n ++ x :: l.drop n)[n]? = some x := by
  have hl : (l.take n).length = n := by simp [List.length_take, h]
  rw [List.getElem?_append_right (by omega), hl]
  simp

theorem getElem?_before_inserted (l : List MENUITEMINFOW) (n m : Nat) (x : MENUITEMINFOW)
    (hnm : n < m) (hm : m ≤ l.length) : (l.take m ++ x :: l.drop m)[n]? = l[n]? := by
  have hl : (l.take m).length = m := by simp [List.length_take, hm]
  rw [List.getElem?_append_left (by omega), List.getElem?_take]
  simp [hnm]

/-- C4 as stated fails: at insertion index 0 of a menu whose only item is a
string, no item precedes the insertion point, so none is a separator there,
and yet no separator is inserted. -/
theorem C4_counterexample :
    precedingItem oneItemMenu 0 = none ∧
    ¬ (QueryContextMenu sampleHost sampleObject oneItemMenu 0 5 9 0).separatorInserted ∧
    (QueryContextMenu sampleHost sampleObject oneItemMenu 0 5 9 0).hMenu.items.map (fun it => it.fType)
      = [MFT_STRING, MFT_STRING] := by
  refine ⟨by decide, ?_, by decide⟩
  rintro ⟨pos, h⟩
  have h2 : (QueryContextMenu sampleHost sampleObject oneItemMenu 0 5 9 0).log
      = [Event.InsertMenuItemW 0 (copyToItem sampleHost 5) true] := by decide
  rw [h2] at h
  simp only [List.mem_singleton, Event.InsertMenuItemW.injEq] at h
  exact absurd h.2.1 (by decide)

/-- C4, amended: for a menu in which the item immediately before the
insertion point, if there is one, is either a plain separator (its type is
`MFT_SEPARATOR`) or no separator at all, `QueryContextMenu` inserts a
separator if and only if there is an item immediately before the insertion
point, that item is not a separator, and the insertion call succeeds; in
particular at index 0, or when no item stands at `indexMenu - 1`, none is
inserted.  When it is inserted it stands at `indexMenu`, the menu has one
separator more, and the entry, if its own insertion succeeds, stands right
after it; otherwise the number of separators is unchanged. -/
theorem C4_separator_rule (host : Host) (self : CCopyToMenu) (hMenu : HMENU)
    (indexMenu idCmdFirst idCmdLast uFlags : Nat)
    (hidx : indexMenu < 2 ^ 32) (hlen : hMenu.items.length + 1 < 2 ^ 32)
    (hplain : ∀ mii, precedingItem hMenu indexMenu = some mii →
      mii.fType = MFT_SEPARATOR ∨ isSeparator mii = false) :
    ((QueryContextMenu host self hMenu indexMenu idCmdFirst idCmdLast uFlags).separatorInserted ↔
      ∃ mii, precedingItem hMenu indexMenu = some mii ∧ isSeparator mii = false ∧
        hMenu.outcomes.head? ≠ some false) ∧
    ((QueryContextMenu host self hMenu indexMenu idCmdFirst idCmdLast uFlags).separatorInserted →
      (QueryContextMenu host self hMenu indexMenu idCmdFirst idCmdLast uFlags).hMenu.items[indexMenu]?
        = some separatorItem ∧
      separatorCount (QueryContextMenu host self hMenu indexMenu idCmdFirst idCmdLast uFlags).hMenu
        = separatorCount hMenu + 1 ∧
      (insertedEntryId
          (QueryContextMenu host self hMenu indexMenu idCmdFirst idCmdLast uFlags).log
          = some idCmdFirst →
        (QueryContextMenu host self hMenu indexMenu idCmdFirst idCmdLast
          uFlags).hMenu.items[indexMenu + 1]? = some (copyToItem host idCmdFirst))) ∧
    (¬ (QueryContextMenu host self hMenu indexMenu idCmdFirst idCmdLast uFlags).separatorInserted →
      separatorCount (QueryContextMenu host self hMenu indexMenu idCmdFirst idCmdLast uFlags).hMenu
        = separatorCount hMenu) := by
  have h32 : (2 : Nat) ^ 32 = 4294967296 := by norm_num
  have hpre := precedingItem_eq hMenu indexMenu hidx (by omega)
  have hs : (copyToItem host idCmdFirst).fType = MFT_STRING := rfl
  have hsne : ¬ isSeparator (copyToItem host idCmdFirst) = true := by
    show ¬ ((MFT_STRING &&& MFT_SEPARATOR != 0) = true)
    decide
  have hsep : isSeparator separatorItem = true := by decide
  -- the separator events of the whole call are those of the separator block
  have hev : (QueryContextMenu host self hMenu indexMenu idCmdFirst idCmdLast
        uFlags).separatorInserted ↔
      ∃ pos, Event.InsertMenuItemW pos separatorItem true
        ∈ (insertSeparatorIfNecessary hMenu indexMenu).2.2.2 := by
    unfold QueryResult.separatorInserted
    by_cases h : (insertSeparatorIfNecessary hMenu indexMenu).1.outcomes.head? = some false
    · rw [QueryContextMenu_entry_fail host self hMenu indexMenu idCmdFirst idCmdLast uFlags h]
      exact exists_congr (fun q => separatorEvent_iff hMenu indexMenu _ _ false hs q)
    · rw [QueryContextMenu_entry_ok host self hMenu indexMenu idCmdFirst idCmdLast uFlags h]
      exact exists_congr (fun q => separatorEvent_iff hMenu indexMenu _ _ true hs q)
  rw [hev]
  rcases insertSeparator_cases hMenu indexMenu with ⟨⟨mii, hg, ht⟩, ho, hsp⟩ | ⟨⟨mii, hg, ht⟩, ho, hsp⟩ | ⟨hno, hsp⟩
  · -- the separator went in
    rw [hpre] at hg
    have hidx1 : 1 ≤ indexMenu ∧ indexMenu ≤ hMenu.items.length := by
      unfold precedingItem at hg
      by_cases h0 : indexMenu = 0
      · rw [if_pos h0] at hg; cases hg
      · rw [if_neg h0] at hg
        have := (List.get?_eq_some.1 hg).1
        omega
    have hu : u32 (indexMenu + 1) = indexMenu + 1 := by
      unfold u32; rw [h32] at hlen ⊢; omega
    have hin : ∃ pos, Event.InsertMenuItemW pos separatorItem true
        ∈ (insertSeparatorIfNecessary hMenu indexMenu).2.2.2 := ⟨indexMenu, by rw [hsp]; simp⟩
    refine ⟨⟨fun _ => ⟨mii, hg, (isSeparator_of_plain mii (hplain mii hg)).1 ht, ho⟩,
      fun _ => hin⟩, fun _ => ?_, fun hn => absurd hin hn⟩
    have hlen1 : indexMenu + 1
        ≤ (hMenu.items.take indexMenu ++ separatorItem :: hMenu.items.drop indexMenu).length := by
      simp only [List.length_append, List.length_take, List.length_cons, List.length_drop]
      omega
    by_cases h : (insertSeparatorIfNecessary hMenu indexMenu).1.outcomes.head? = some false
    · rw [QueryContextMenu_entry_fail host self hMenu indexMenu idCmdFirst idCmdLast uFlags h,
        insertedEntryId_separator, hsp]
      refine ⟨getElem?_inserted _ _ _ hidx1.2, ?_, ?_⟩
      · show separatorCount ⟨_, _⟩ = _
        rw [separatorCount_insert hMenu.items indexMenu separatorItem _ hMenu.outcomes, if_pos hsep]
      · intro hi
        simp [insertedEntryId] at hi
    · rw [QueryContextMenu_entry_ok host self hMenu indexMenu idCmdFirst idCmdLast uFlags h, hsp]
      simp only [hu]
      refine ⟨?_, ?_, fun _ => getElem?_inserted _ _ _ hlen1⟩
      · rw [getElem?_before_inserted _ _ _ _ (Nat.lt_succ_self _) hlen1]
        exact getElem?_inserted _ _ _ hidx1.2
      · rw [separatorCount_insert _ _ _ _ hMenu.outcomes.tail, if_neg hsne,
          separatorCount_insert hMenu.items indexMenu separatorItem _ hMenu.outcomes, if_pos hsep]
  · -- the insertion of the separator failed
    rw [hpre] at hg
    have hout : ¬ ∃ pos, Event.InsertMenuItemW pos separatorItem true
        ∈ (insertSeparatorIfNecessary hMenu indexMenu).2.2.2 := by
      rw [hsp]; simp
    refine ⟨⟨fun h => absurd h hout, fun ⟨_, _, _, h⟩ => absurd ho h⟩, fun h => absurd h hout,
      fun _ => ?_⟩
    by_cases h : (insertSeparatorIfNecessary hMenu indexMenu).1.outcomes.head? = some false
    · rw [QueryContextMenu_entry_fail host self hMenu indexMenu idCmdFirst idCmdLast uFlags h, hsp]
      rfl
    · rw [QueryContextMenu_entry_ok host self hMenu indexMenu idCmdFirst idCmdLast uFlags h, hsp]
      show separatorCount ⟨_, _⟩ = _
      rw [separatorCount_insert hMenu.items indexMenu _ _ hMenu.outcomes, if_neg hsne]
      rfl
  · -- no item before the insertion point, or a separator there
    rw [hpre] at hno
    have hout : ¬ ∃ pos, Event.InsertMenuItemW pos separatorItem true
        ∈ (insertSeparatorIfNecessary hMenu indexMenu).2.2.2 := by
      rw [hsp]; simp
    refine ⟨⟨fun h => absurd h hout,
        fun ⟨m, h1, h2, _⟩ =>
          absurd ⟨m, h1, (isSeparator_of_plain m (hplain m h1)).2 h2⟩ hno⟩,
      fun h => absurd h hout, fun _ => ?_⟩
    by_cases h : (insertSeparatorIfNecessary hMenu indexMenu).1.outcomes.head? = some false
    · rw [QueryContextMenu_entry_fail host self hMenu indexMenu idCmdFirst idCmdLast uFlags h, hsp]
      rfl
    · rw [QueryContextMenu_entry_ok host self hMenu indexMenu idCmdFirst idCmdLast uFlags h, hsp]
      show separatorCount ⟨_, _⟩ = _
      rw [separatorCount_insert hMenu.items indexMenu _ _ hMenu.outcomes, if_neg hsne]
      rfl

/-- C4, evaluated: at index 1 of a menu whose only item is a string, a
separator is inserted at index 1 and the entry follows it. -/
theorem C4_separator_rule_witness :
    (QueryContextMenu sampleHost sampleObject oneItemMenu 1 5 9 0).separatorInserted ∧
    (QueryContextMenu sampleHost sampleObject oneItemMenu 1 5 9 0).hMenu.items.map
        (fun it => it.fType) = [MFT_STRING, MFT_SEPARATOR, MFT_STRING] :=
  ⟨(C4_separator_rule sampleHost sampleObject oneItemMenu 1 5 9 0 (by norm_num)
      (by norm_num [oneItemMenu])
      (by intro mii h
          have h2 : mii = { fMask := 0, fType := MFT_STRING, wID := 7, dwTypeData := [], cch := 0 } :=
            (Option.some.inj h).symm
          subst h2
          exact Or.inr (by decide))).1.2
      ⟨{ fMask := 0, fType := MFT_STRING, wID := 7, dwTypeData := [], cch := 0 },
        by decide, by decide, by decide⟩,
    by decide⟩

end CopyTo
